import Mathlib

set_option allowUnsafeReducibility true
attribute [local semireducible] Rat.add Rat.mul Rat.inv Rat.sub Rat.ofScientific

/-!
Verification development for the scraping/extraction pipeline of the
AI-Product repository (transports, marketplace connectors and the layered
price extractor).

The TypeScript sources are shallowly embedded:
* JS numbers are modelled as `ℚ` (all numbers reaching the price logic are
  finite decimals produced by `parseFloat`/`Number`); `NaN`/`undefined`
  results are modelled with `Option`.
* JSON values are an inductive AST (`Json`) together with executable models
  of `JSON.parse`, `JSON.stringify`, JS property access, truthiness,
  `String(...)`, `Number(...)` and `parseFloat`.
* The lexical/regex layer of the extractors is abstracted into a structured
  `Content` record: each field holds exactly the capture groups the
  corresponding regular expression in the source would produce (documented
  field by field); everything downstream of the captures is translated
  statement-for-statement from the source.
* Effectful control flow (the transports' `fetch`) is modelled by explicit
  environments describing which internal step fails and with what value,
  and outcome records tracking the raised/returned value plus resource
  bookkeeping (browser acquisition / close calls).
-/

/-! ### Error taxonomy (src: scrapers/types.ts, class ScraperError) -/

/-- The `code` field of `ScraperError` in `types.ts`:
`'TIMEOUT' | 'BLOCKED' | 'PARSE_ERROR' | 'NETWORK_ERROR' | 'UNKNOWN'`. -/
inductive ErrKind where
  | TIMEOUT
  | BLOCKED
  | PARSE_ERROR
  | NETWORK_ERROR
  | UNKNOWN
deriving DecidableEq, Repr

/-- `ScraperError` (types.ts): tagged error with a message and a kind.
The optional `marketplace`/`originalError` fields are not needed by any
claim and are omitted from the embedding. -/
structure ScraperErrorE where
  message : String
  code : ErrKind
deriving DecidableEq, Repr

/-- A JavaScript throwable, as the `catch (error)` blocks in the sources
distinguish them: a `ScraperError`, some other `Error` (with its `name` and
`message`), or a non-`Error` value. -/
inductive Thrown where
  | scraperErr (e : ScraperErrorE)
  | jsError (name message : String)
  | nonError
deriving DecidableEq, Repr

/-! ### Product data model (src: scrapers/types.ts, interface ScrapedProduct) -/

/-- `ScrapedProduct.availability` values. -/
inductive Availability where
  | in_stock
  | out_of_stock
  | pre_order
  | unknown
deriving DecidableEq, Repr

/-- `ScrapedProduct.extractionMethod` values.  The spec's §3 enum names map
onto these code-level tags: structured-data ↦ `jsonLd` (`'json-ld'`),
metadata ↦ `opengraph`, pattern-match ↦ `cssSelector` (`'css-selector'`),
api/embedded-state ↦ `api`. -/
inductive ExtractionMethodTag where
  | jsonLd
  | opengraph
  | cssSelector
  | api
deriving DecidableEq, Repr

/-- `ScrapedProduct` (types.ts).  `price` is modelled as `ℚ`. -/
structure ScrapedProduct where
  name : String
  price : ℚ
  currency : Option String := none
  url : Option String := none
  imageUrl : Option String := none
  availability : Option Availability := none
  extractionMethod : Option ExtractionMethodTag := none
  marketplace : String
deriving DecidableEq, Repr

/-! ### JSON value model -/

/-- Abstract syntax of JSON values (what `JSON.parse` can yield). -/
inductive Json where
  | null : Json
  | bool : Bool → Json
  | num : ℚ → Json
  | str : String → Json
  | arr : List Json → Json
  | obj : List (String × Json) → Json
deriving Repr

namespace JsModel

/-- JS truthiness of a defined JSON value. -/
def truthy : Json → Bool
  | .null => false
  | .bool b => b
  | .num q => q ≠ 0
  | .str s => s ≠ ""
  | .arr _ => true
  | .obj _ => true

/-- JS truthiness of a possibly-`undefined` value (`none` = `undefined`). -/
def truthyOpt : Option Json → Bool
  | none => false
  | some j => truthy j

/-- Property access `v.key`: defined (last duplicate wins, as after
`JSON.parse`) only on objects; `undefined` on every other non-null value.
(Parsed objects have no duplicate keys, see `jsonParse`.) -/
def getField (j : Json) (key : String) : Option Json :=
  match j with
  | .obj fields => (fields.reverse.find? (fun kv => kv.1 = key)).map (·.2)
  | _ => none

/-- Index access `v[0]`: first element of an array, else the `"0"` property
of an object, else `undefined`. -/
def getIndex0 (j : Json) : Option Json :=
  match j with
  | .arr items => items.head?
  | .obj _ => getField j "0"
  | _ => none

/-- `a || b` on possibly-undefined values: first truthy operand, else the
last operand. -/
def jsOr (a b : Option Json) : Option Json :=
  if truthyOpt a then a else b

/-- `a ?? b` (nullish coalescing) on possibly-undefined values. -/
def jsNullish (a b : Option Json) : Option Json :=
  match a with
  | none => b
  | some .null => b
  | some v => some v

/-- `String.prototype.toLowerCase` (character-wise; all the strings the
pipeline lowercases are ordinary text). -/
def toLowerStr (s : String) : String :=
  ⟨s.data.map Char.toLower⟩

/-- `String.prototype.trim`: strip whitespace from both ends. -/
def trimStr (s : String) : String :=
  ⟨((s.data.dropWhile Char.isWhitespace).reverse.dropWhile Char.isWhitespace).reverse⟩

/-- `String.prototype.startsWith`. -/
def startsWithStr (s pre : String) : Bool :=
  pre.data.isPrefixOf s.data

/-- Global, non-overlapping, left-to-right replacement
(`.replace(/pat/g, repl)` for a literal pattern); fueled by the input
length (each step consumes at least one character). -/
def replaceAllList (pat repl : List Char) : Nat → List Char → List Char
  | _, [] => []
  | 0, cs => cs
  | n + 1, c :: cs =>
    if pat.isPrefixOf (c :: cs) then repl ++ replaceAllList pat repl n ((c :: cs).drop pat.length)
    else c :: replaceAllList pat repl n cs

def replaceAllStr (s pat repl : String) : String :=
  if pat = "" then s else ⟨replaceAllList pat.data repl.data s.data.length s.data⟩

/-- Digits of a decimal literal to a natural number. -/
def digitsToNat (ds : List Char) : Nat :=
  ds.foldl (fun a c => a * 10 + (c.toNat - '0'.toNat)) 0

/-- Left-pad a numeral string with zeros to width `k`. -/
def padZeros (s : String) (k : Nat) : String :=
  ⟨List.replicate (k - s.length) '0' ++ s.data⟩

/-- Drop trailing `'0'` characters. -/
def stripTrailingZeros (s : String) : String :=
  ⟨(s.data.reverse.dropWhile (· = '0')).reverse⟩

/-- Decimal rendering of a rational, matching how JS stringifies the finite
decimals that the pipeline produces (`String(price)`, template literals,
`JSON.stringify`): no trailing zeros, no exponent.  Rationals without a
terminating decimal expansion cannot arise from JS floats; they render with
a `/` marker (a character no decimal rendering contains). -/
def ratToString (q : ℚ) : String :=
  if q = 0 then "0"
  else
    let sign := if q < 0 then "-" else ""
    let n := q.num.natAbs
    let d := q.den
    match (List.range 40).find? (fun k => 10 ^ k % d = 0) with
    | some k =>
      let scaled := n * (10 ^ k / d)
      let ip := scaled / 10 ^ k
      let fp := scaled % 10 ^ k
      if fp = 0 then sign ++ toString ip
      else sign ++ toString ip ++ "." ++ stripTrailingZeros (padZeros (toString fp) k)
    | none => sign ++ toString n ++ "/" ++ toString d

/-- `String(v)` on a JSON value (JS `ToString`; arrays join their elements
with commas, objects render as `[object Object]`).  Fueled by nesting
depth; every call site passes the length of the string the value was
parsed from, which always exceeds the nesting depth. -/
def jsToStringFuel : Nat → Json → String
  | 0, _ => ""
  | fuel + 1, j =>
    match j with
    | .null => "null"
    | .bool b => if b then "true" else "false"
    | .num q => ratToString q
    | .str s => s
    | .arr items => String.intercalate "," (items.map (jsToStringFuel fuel))
    | .obj _ => "[object Object]"



/-- `.replace(/[^0-9.]/g, '')`: keep only digits and dots. -/
def keepDigitsDot (s : String) : String :=
  ⟨s.data.filter (fun c => c.isDigit || c = '.')⟩

/-- `.replace(/,/g, '')`: remove commas. -/
def removeCommas (s : String) : String :=
  ⟨s.data.filter (fun c => c ≠ ',')⟩

/-- `parseFloat(s)` (returns `none` for `NaN`): skips leading whitespace,
optional sign, longest `digits[.digits][e[±]digits]` prefix; trailing
garbage is ignored. -/
def parseFloatQ (s : String) : Option ℚ :=
  let cs := s.data.dropWhile Char.isWhitespace
  let (sign, cs) : ℚ × List Char :=
    match cs with
    | '-' :: rest => (-1, rest)
    | '+' :: rest => (1, rest)
    | _ => (1, cs)
  let intDs := cs.takeWhile Char.isDigit
  let cs1 := cs.drop intDs.length
  let (fracDs, cs2) : List Char × List Char :=
    match cs1 with
    | '.' :: rest => (rest.takeWhile Char.isDigit, rest.drop (rest.takeWhile Char.isDigit).length)
    | _ => ([], cs1)
  if intDs.isEmpty ∧ fracDs.isEmpty then none
  else
    let mantissa : ℚ := (digitsToNat intDs : ℚ) + (digitsToNat fracDs : ℚ) / ((10 : ℚ) ^ fracDs.length)
    let expVal : Int :=
      match cs2 with
      | 'e' :: rest =>
        (match rest with
         | '-' :: r => if (r.takeWhile Char.isDigit).isEmpty then 0 else -(digitsToNat (r.takeWhile Char.isDigit) : Int)
         | '+' :: r => if (r.takeWhile Char.isDigit).isEmpty then 0 else (digitsToNat (r.takeWhile Char.isDigit) : Int)
         | r => if (r.takeWhile Char.isDigit).isEmpty then 0 else (digitsToNat (r.takeWhile Char.isDigit) : Int))
      | 'E' :: rest =>
        (match rest with
         | '-' :: r => if (r.takeWhile Char.isDigit).isEmpty then 0 else -(digitsToNat (r.takeWhile Char.isDigit) : Int)
         | '+' :: r => if (r.takeWhile Char.isDigit).isEmpty then 0 else (digitsToNat (r.takeWhile Char.isDigit) : Int)
         | r => if (r.takeWhile Char.isDigit).isEmpty then 0 else (digitsToNat (r.takeWhile Char.isDigit) : Int))
      | _ => 0
    let scaled : ℚ :=
      if 0 ≤ expVal then mantissa * (10 : ℚ) ^ expVal.toNat
      else mantissa / (10 : ℚ) ^ (-expVal).toNat
    some (sign * scaled)

/-- `Number(s)` for a string (`none` = `NaN`): the whole trimmed string must
be a decimal numeral (empty string is 0). -/
def jsNumberOfString (s : String) : Option ℚ :=
  let t := trimStr s
  if t = "" then some 0
  else
    match parseFloatQ t with
    | none => none
    | some v =>
      -- `Number` rejects trailing garbage (unlike `parseFloat`); model by
      -- requiring every character of the trimmed string to belong to a
      -- decimal numeral.
      if t.data.all (fun c => c.isDigit || c = '.' || c = '-' || c = '+' || c = 'e' || c = 'E') then
        some v
      else none

/-- `Number(v)` on a JSON value (`none` = `NaN`).  `null` is 0; arrays
convert through their string form (`Number(String(v))`). -/
def jsNumber (fuel : Nat) : Json → Option ℚ
  | .null => some 0
  | .bool b => some (if b then 1 else 0)
  | .num q => some q
  | .str s => jsNumberOfString s
  | .arr items => jsNumberOfString (jsToStringFuel fuel (.arr items))
  | .obj _ => none

/-- `Number(undefined)` is `NaN`. -/
def jsNumberOpt (fuel : Nat) : Option Json → Option ℚ
  | none => none
  | some j => jsNumber fuel j

/-- Case-sensitive substring test (`String.prototype.includes`). -/
def containsSubstr (hay needle : String) : Bool :=
  (List.range (hay.data.length + 1)).any (fun i => needle.data.isPrefixOf (hay.data.drop i))

end JsModel

/-! ### First-occurrence deduplication

Models the repeated source idiom
`const m = new Map(); for (p of ps) { const k = key(p); if (!m.has(k)) m.set(k, p); } return [...m.values()]`
(first record per key is retained, in first-occurrence order). -/

/-- Worker: `seen` is the set of keys already in the map. -/
def dedupGo {α : Type} (key : α → String) (seen : List String) : List α → List α
  | [] => []
  | x :: xs =>
    if key x ∈ seen then dedupGo key seen xs
    else x :: dedupGo key (key x :: seen) xs

/-- First-occurrence-wins deduplication by a string key. -/
def dedupFirstByKey {α : Type} (key : α → String) (xs : List α) : List α :=
  dedupGo key [] xs

theorem dedupGo_sublist {α : Type} (key : α → String) (seen : List String) (xs : List α) :
    (dedupGo key seen xs).Sublist xs := by
  induction xs generalizing seen with
  | nil => simp [dedupGo]
  | cons x xs ih =>
    by_cases hx : key x ∈ seen
    · simp only [dedupGo, if_pos hx]
      exact (ih seen).trans (List.sublist_cons_self x xs)
    · simp only [dedupGo, if_neg hx]
      exact (ih (key x :: seen)).cons₂ x

theorem dedupGo_key_not_seen {α : Type} (key : α → String) (seen : List String)
    (xs : List α) : ∀ y ∈ dedupGo key seen xs, key y ∉ seen := by
  induction xs generalizing seen with
  | nil => simp [dedupGo]
  | cons x xs ih =>
    by_cases hx : key x ∈ seen
    · simp only [dedupGo, if_pos hx]
      exact ih seen
    · simp only [dedupGo, if_neg hx]
      intro y hy
      rcases List.mem_cons.mp hy with rfl | hy'
      · exact hx
      · intro hmem
        exact ih (key x :: seen) y hy' (List.mem_cons_of_mem _ hmem)

theorem dedupGo_pairwise {α : Type} (key : α → String) (seen : List String) (xs : List α) :
    (dedupGo key seen xs).Pairwise (fun a b => key a ≠ key b) := by
  induction xs generalizing seen with
  | nil => simp [dedupGo]
  | cons x xs ih =>
    by_cases hx : key x ∈ seen
    · simp only [dedupGo, if_pos hx]
      exact ih seen
    · simp only [dedupGo, if_neg hx]
      refine List.Pairwise.cons ?_ (ih (key x :: seen))
      intro y hy hkey
      exact dedupGo_key_not_seen key _ xs y hy (by simp [hkey])

/-- Deduplicated output has pairwise-distinct keys. -/
theorem dedupFirstByKey_pairwise {α : Type} (key : α → String) (xs : List α) :
    (dedupFirstByKey key xs).Pairwise (fun a b => key a ≠ key b) :=
  dedupGo_pairwise key [] xs

/-- Deduplicated output is a sublist of the input (first-occurrence order
preserved, every element comes from the input). -/
theorem dedupFirstByKey_sublist {α : Type} (key : α → String) (xs : List α) :
    (dedupFirstByKey key xs).Sublist xs :=
  dedupGo_sublist key [] xs

/-! ### Executable model of `JSON.parse` -/

namespace JsonParse

/-- JSON whitespace. -/
def isJsonWs (c : Char) : Bool :=
  c = ' ' || c = '\t' || c = '\n' || c = '\r'

def skipWs (cs : List Char) : List Char :=
  cs.dropWhile isJsonWs

def hexVal (c : Char) : Option Nat :=
  if c.isDigit then some (c.toNat - '0'.toNat)
  else if 'a' ≤ c ∧ c ≤ 'f' then some (c.toNat - 'a'.toNat + 10)
  else if 'A' ≤ c ∧ c ≤ 'F' then some (c.toNat - 'A'.toNat + 10)
  else none

/-- Body of a JSON string literal after the opening quote; returns the
decoded string and the remainder after the closing quote.  Unescaped
control characters are rejected, escapes are decoded. -/
def parseStringBody : List Char → Option (String × List Char)
  | [] => none
  | '"' :: rest => some ("", rest)
  | '\\' :: c :: rest =>
    (match c with
     | '"' => (parseStringBody rest).map (fun (s, r) => (⟨'"' :: s.data⟩, r))
     | '\\' => (parseStringBody rest).map (fun (s, r) => (⟨'\\' :: s.data⟩, r))
     | '/' => (parseStringBody rest).map (fun (s, r) => (⟨'/' :: s.data⟩, r))
     | 'b' => (parseStringBody rest).map (fun (s, r) => (⟨'\x08' :: s.data⟩, r))
     | 'f' => (parseStringBody rest).map (fun (s, r) => (⟨'\x0c' :: s.data⟩, r))
     | 'n' => (parseStringBody rest).map (fun (s, r) => (⟨'\n' :: s.data⟩, r))
     | 'r' => (parseStringBody rest).map (fun (s, r) => (⟨'\r' :: s.data⟩, r))
     | 't' => (parseStringBody rest).map (fun (s, r) => (⟨'\t' :: s.data⟩, r))
     | 'u' =>
       (match rest with
        | h1 :: h2 :: h3 :: h4 :: rest2 =>
          (match hexVal h1, hexVal h2, hexVal h3, hexVal h4 with
           | some x1, some x2, some x3, some x4 =>
             (parseStringBody rest2).map
               (fun (s, r) => (⟨Char.ofNat (((x1 * 16 + x2) * 16 + x3) * 16 + x4) :: s.data⟩, r))
           | _, _, _, _ => none)
        | _ => none)
     | _ => none)
  | c :: rest =>
    if c.toNat < 0x20 then none
    else (parseStringBody rest).map (fun (s, r) => (⟨c :: s.data⟩, r))


/-- Strict JSON number literal, returning its value and the remainder. -/
def parseNumber (cs : List Char) : Option (ℚ × List Char) :=
  let (neg, cs1) : Bool × List Char :=
    match cs with
    | '-' :: r => (true, r)
    | _ => (false, cs)
  let intDs := cs1.takeWhile Char.isDigit
  if intDs.isEmpty then none
  else if 1 < intDs.length ∧ intDs.head? = some '0' then none
  else
    let cs2 := cs1.drop intDs.length
    let (fracDs, cs3) : List Char × List Char :=
      match cs2 with
      | '.' :: r => (r.takeWhile Char.isDigit, r.drop (r.takeWhile Char.isDigit).length)
      | _ => ([], cs2)
    if cs2.head? = some '.' ∧ fracDs.isEmpty then none
    else
      let (expSign, expDs, cs4) : Int × List Char × List Char :=
        match cs3 with
        | 'e' :: '-' :: r => (-1, r.takeWhile Char.isDigit, r.drop (r.takeWhile Char.isDigit).length)
        | 'e' :: '+' :: r => (1, r.takeWhile Char.isDigit, r.drop (r.takeWhile Char.isDigit).length)
        | 'e' :: r => (1, r.takeWhile Char.isDigit, r.drop (r.takeWhile Char.isDigit).length)
        | 'E' :: '-' :: r => (-1, r.takeWhile Char.isDigit, r.drop (r.takeWhile Char.isDigit).length)
        | 'E' :: '+' :: r => (1, r.takeWhile Char.isDigit, r.drop (r.takeWhile Char.isDigit).length)
        | 'E' :: r => (1, r.takeWhile Char.isDigit, r.drop (r.takeWhile Char.isDigit).length)
        | _ => (1, [], cs3)
      if (cs3.head? = some 'e' ∨ cs3.head? = some 'E') ∧ expDs.isEmpty then none
      else
        let mantissa : ℚ :=
          (JsModel.digitsToNat intDs : ℚ)
            + (JsModel.digitsToNat fracDs : ℚ) / ((10 : ℚ) ^ fracDs.length)
        let expVal : Int := expSign * (JsModel.digitsToNat expDs : Int)
        let scaled : ℚ :=
          if 0 ≤ expVal then mantissa * (10 : ℚ) ^ expVal.toNat
          else mantissa / (10 : ℚ) ^ (-expVal).toNat
        some ((if neg then -scaled else scaled), cs4)

/-- Duplicate object keys after `JSON.parse`: the key keeps the position of
its first occurrence but the value of its last occurrence. -/
def collapseDupKeys (ms : List (String × Json)) : List (String × Json) :=
  (dedupFirstByKey (fun kv => kv.1) ms).map
    (fun kv => (kv.1, (((ms.reverse.find? (fun kv2 => kv2.1 = kv.1)).map (·.2)).getD kv.2)))

mutual

/-- Fueled JSON value parser. -/
def parseValue : Nat → List Char → Option (Json × List Char)
  | 0, _ => none
  | fuel + 1, cs0 =>
    let cs := skipWs cs0
    match cs with
    | 'n' :: 'u' :: 'l' :: 'l' :: r => some (.null, r)
    | 't' :: 'r' :: 'u' :: 'e' :: r => some (.bool true, r)
    | 'f' :: 'a' :: 'l' :: 's' :: 'e' :: r => some (.bool false, r)
    | '"' :: r => (parseStringBody r).map (fun (s, r') => (.str s, r'))
    | '[' :: r =>
      (match skipWs r with
       | ']' :: r2 => some (.arr [], r2)
       | r1 => (parseArrayItems fuel r1).map (fun (items, r') => (.arr items, r')))
    | '{' :: r =>
      (match skipWs r with
       | '}' :: r2 => some (.obj [], r2)
       | r1 => (parseObjMembers fuel r1).map (fun (ms, r') => (.obj (collapseDupKeys ms), r')))
    | _ => (parseNumber cs).map (fun (q, r') => (.num q, r'))

/-- One-or-more comma-separated array items up to `]`. -/
def parseArrayItems : Nat → List Char → Option (List Json × List Char)
  | 0, _ => none
  | fuel + 1, cs =>
    match parseValue fuel cs with
    | none => none
    | some (v, r) =>
      match skipWs r with
      | ',' :: r2 => (parseArrayItems fuel r2).map (fun (vs, r') => (v :: vs, r'))
      | ']' :: r2 => some ([v], r2)
      | _ => none

/-- One-or-more `"key": value` members up to `}`. -/
def parseObjMembers : Nat → List Char → Option (List (String × Json) × List Char)
  | 0, _ => none
  | fuel + 1, cs =>
    match skipWs cs with
    | '"' :: r =>
      (match parseStringBody r with
       | none => none
       | some (k, r1) =>
         match skipWs r1 with
         | ':' :: r2 =>
           (match parseValue fuel r2 with
            | none => none
            | some (v, r3) =>
              match skipWs r3 with
              | ',' :: r4 => (parseObjMembers fuel r4).map (fun (ms, r') => ((k, v) :: ms, r'))
              | '}' :: r4 => some ([(k, v)], r4)
              | _ => none)
         | _ => none)
    | _ => none

end

end JsonParse

/-- `JSON.parse(s)`: `none` models a thrown `SyntaxError`. -/
def jsonParse (s : String) : Option Json :=
  match JsonParse.parseValue (s.data.length + 2) s.data with
  | some (v, rest) => if (JsonParse.skipWs rest).isEmpty then some v else none
  | none => none

/-! ### Executable model of `JSON.stringify` and the base64 pipeline -/

/-- 4-digit lowercase hex (for `\uXXXX` escapes). -/
def hex4 (n : Nat) : String :=
  let d := fun (k : Nat) =>
    let v := k % 16
    if v < 10 then Char.ofNat ('0'.toNat + v) else Char.ofNat ('a'.toNat + v - 10)
  ⟨[d (n / 4096), d (n / 256), d (n / 16), d n]⟩

/-- `JSON.stringify` escaping of one string character. -/
def escapeJsonChar (c : Char) : String :=
  if c = '"' then "\\\""
  else if c = '\\' then "\\\\"
  else if c = '\n' then "\\n"
  else if c = '\r' then "\\r"
  else if c = '\t' then "\\t"
  else if c = '\x08' then "\\b"
  else if c = '\x0c' then "\\f"
  else if c.toNat < 0x20 then "\\u" ++ hex4 c.toNat
  else String.singleton c

/-- `JSON.stringify` (no indentation, as used by the transports), fueled
by nesting depth.  The values the transport serializes (arrays of flat
`{url, payload}` / `{name, price, url}` objects and arrays of strings)
have depth at most 3, so the fuel `serializeDepth = 8` used below never
runs out. -/
def jsonStringifyFuel : Nat → Json → String
  | 0, _ => ""
  | fuel + 1, j =>
    match j with
    | .null => "null"
    | .bool b => if b then "true" else "false"
    | .num q => JsModel.ratToString q
    | .str s => "\"" ++ String.join (s.data.map escapeJsonChar) ++ "\""
    | .arr items =>
      "[" ++ String.intercalate "," (items.map (jsonStringifyFuel fuel)) ++ "]"
    | .obj ms =>
      "\x7b" ++ String.intercalate ","
        (ms.map (fun kv =>
          "\"" ++ String.join (kv.1.data.map escapeJsonChar) ++ "\":" ++ jsonStringifyFuel fuel kv.2))
        ++ "\x7d"



/-- UTF-8 encoding of one character. -/
def utf8EncodeChar (c : Char) : List Nat :=
  let n := c.toNat
  if n < 0x80 then [n]
  else if n < 0x800 then [0xC0 + n / 64, 0x80 + n % 64]
  else if n < 0x10000 then [0xE0 + n / 4096, 0x80 + (n / 64) % 64, 0x80 + n % 64]
  else [0xF0 + n / 262144, 0x80 + (n / 4096) % 64, 0x80 + (n / 64) % 64, 0x80 + n % 64]

/-- `unescape(encodeURIComponent(s))`: the UTF-8 bytes of `s`. -/
def utf8Bytes (s : String) : List Nat :=
  s.data.foldr (fun c acc => utf8EncodeChar c ++ acc) []

def b64Char (n : Nat) : Char :=
  ("ABCDEFGHIJKLMNOPQRSTUVWXYZabcdefghijklmnopqrstuvwxyz0123456789+/".data.drop n).headD 'A'

/-- Standard base64 of a byte list (what `btoa` produces). -/
def base64Encode : List Nat → String
  | [] => ""
  | [a] => ⟨[b64Char (a / 4), b64Char (a % 4 * 16), '=', '=']⟩
  | [a, b] => ⟨[b64Char (a / 4), b64Char (a % 4 * 16 + b / 16), b64Char (b % 16 * 4), '=']⟩
  | a :: b :: c :: rest =>
    (⟨[b64Char (a / 4), b64Char (a % 4 * 16 + b / 16), b64Char (b % 16 * 4 + c / 64),
       b64Char (c % 64)]⟩ : String) ++ base64Encode rest

def serializeDepth : Nat := 8

/-- `btoa(unescape(encodeURIComponent(JSON.stringify(v))))` — the exact
serialization BrowserScraperV2 applies to each embedded data block
(browser-scraper-v2.ts, the revision that also captures DOM products). -/
def btoaUtf8Stringify (v : Json) : String :=
  base64Encode (utf8Bytes (jsonStringifyFuel serializeDepth v))

/-! ### String post-processing helpers used by the connectors -/

namespace JsModel

/-- `.replace(/<[^>]*>/g, ' ')`: each complete tag becomes one space; an
unterminated `<...` (which the regex would not match) is kept verbatim. -/
def stripTagsOnceFuel : Nat → List Char → List Char
  | _, [] => []
  | 0, cs => cs
  | n + 1, '<' :: rest =>
    if rest.contains '>' then
      ' ' :: stripTagsOnceFuel n ((rest.dropWhile (· ≠ '>')).drop 1)
    else '<' :: stripTagsOnceFuel n rest
  | n + 1, c :: rest => c :: stripTagsOnceFuel n rest

def stripTagsOnce (cs : List Char) : List Char :=
  stripTagsOnceFuel cs.length cs

/-- `.replace(/\s+/g, ' ')`: collapse whitespace runs to single spaces. -/
def collapseWsFuel : Nat → List Char → List Char
  | _, [] => []
  | 0, cs => cs
  | n + 1, c :: rest =>
    if c.isWhitespace then ' ' :: collapseWsFuel n (rest.dropWhile Char.isWhitespace)
    else c :: collapseWsFuel n rest

def collapseWs (cs : List Char) : List Char :=
  collapseWsFuel cs.length cs

/-- `match[2].replace(/<[^>]*>/g, ' ').replace(/\s+/g, ' ').trim()` — the
anchor-text cleanup in `extractFromGenericProductBlocks`. -/
def cleanAnchorText (s : String) : String :=
  trimStr (String.mk (collapseWs (stripTagsOnce s.data)))

end JsModel

/-! ### Structured content abstraction

`Content` records, field by field, exactly the capture groups that the
extraction regexes of the sources produce on an HTML/content string, in
order of appearance.  Everything downstream of the captures is translated
statement-for-statement from the sources. -/

/-- One `<li class="...product-item...">…</li>` container match and the
captures of the inner regexes run against its body (`jarir.ts
extractProductsFromHtml`, `jarir-browser.ts extractFromSearchResults`). -/
structure ContainerMatch where
  /-- `<a class="...product-item-link...">([^<]+)</a>` capture. -/
  nameCapture : Option String := none
  /-- `data-price-amount="([^"]+)"` capture. -/
  priceAttrCapture : Option String := none
  /-- `<span class="...price...">([^<]+)</span>` capture. -/
  priceSpanCapture : Option String := none
  /-- `<a href="([^"]+)" ... class="...product-item-link` capture. -/
  urlCapture : Option String := none
deriving DecidableEq, Repr

/-- One `<a href="...(/p/|product)...">…</a>` match of
`extractFromGenericProductBlocks` (jarir-browser.ts). -/
structure GenericLinkMatch where
  /-- `match[1]`: the href value. -/
  urlCapture : String
  /-- `match[2]`: the raw anchor inner HTML (≤ 120 chars by the regex). -/
  anchorHtml : String
  /-- Capture of the first of the three neighborhood price patterns that
  matched (`data-price-amount`, JSON price keys, `SAR`-suffixed amount);
  `none` when none matched. -/
  priceCapture : Option String := none
deriving DecidableEq, Repr

/-- One `<a href="...shopping/product...">` card match of
`extractFromGoogleShoppingHtml` (google-shopping.ts). -/
structure GoogleCard where
  /-- `match[1]`: the raw href. -/
  hrefCapture : String
  /-- `match[2]`: the raw anchor inner HTML (≤ 400 chars by the regex). -/
  anchorHtml : String
  /-- Neighborhood `"(?:title|name)"\s*:\s*"([^"]{4,160})"` capture. -/
  titleFallbackCapture : Option String := none
  /-- Captures of the three price patterns that matched in the
  neighborhood, in pattern order (each pattern contributes at most one). -/
  priceCaptures : List String := []
deriving DecidableEq, Repr

/-- Structured view of a fetched content string: the capture groups each
extraction regex would produce, in order of appearance. -/
structure Content where
  /-- Inner text of each `<script type="application/ld+json">` block. -/
  jsonLdBlocks : List String := []
  /-- `og:price:amount` / `product:price:amount` meta content capture
  (either attribute ordering). -/
  ogPriceAmount : Option String := none
  /-- `og:price:currency` / `product:price:currency` capture. -/
  ogPriceCurrency : Option String := none
  /-- `og:title` capture. -/
  ogTitle : Option String := none
  /-- `og:image` capture. -/
  ogImage : Option String := none
  /-- `og:url` capture. -/
  ogUrl : Option String := none
  /-- Inner text of `<script id="__SCRAPER_DOM_PRODUCTS__">`, if present. -/
  domProductsBlock : Option String := none
  /-- Inner text of `<script id="__SCRAPER_API_PAYLOADS__">`, if present. -/
  apiPayloadsBlock : Option String := none
  /-- Inner text of `<script id="__SCRAPER_RESOURCE_URLS__">`, if present. -/
  resourceUrlsBlock : Option String := none
  /-- Inner texts of all `<script type="application/json">` blocks. -/
  jsonScriptBlocks : List String := []
  /-- `match[1]` captures of the `"name": "...", ..., "price": ...` JSON
  snippet pattern (`extractFromProductJsonAttributes`). -/
  jsonAttrSnippets : List String := []
  /-- Generic product-link matches (`extractFromGenericProductBlocks`). -/
  genericLinks : List GenericLinkMatch := []
  /-- Product container matches (`product-item` list items). -/
  productContainers : List ContainerMatch := []
  /-- Google Shopping card matches. -/
  googleCards : List GoogleCard := []
deriving Repr

/-- A content string with no extractable structure. -/
def emptyContent : Content := {}

/-! ### PriceExtractor (src: scrapers/utils/price-extractor.ts, embedded in
jarir.ts; the later revision adds the embedded-block extractors) -/

namespace PriceExtractor
open JsModel

/-- `normalizeAvailability` on a string argument. -/
def normalizeAvailabilityStr (a : String) : Availability :=
  let lower := toLowerStr a
  if containsSubstr lower "instock" || containsSubstr lower "in stock" then .in_stock
  else if containsSubstr lower "outofstock" || containsSubstr lower "out of stock" then .out_of_stock
  else if containsSubstr lower "preorder" || containsSubstr lower "pre-order" then .pre_order
  else .unknown

/-- `item['@type'] === 'Product'`. -/
def isProductType (j : Json) : Bool :=
  match getField j "@type" with
  | some (.str s) => s = "Product"
  | _ => false

/-- `.find(item => item['@type'] === 'Product')`; property access on a
`null` element throws (`.error`), which the per-block `catch` turns into
skipping the block. -/
def findProductItem : List Json → Except Unit (Option Json)
  | [] => .ok none
  | .null :: _ => .error ()
  | j :: rest => if isProductType j then .ok (some j) else findProductItem rest

/-- `parseJsonLdProduct(data, marketplace)` (jarir.ts).  Returns `none`
both for the explicit `return null` paths and for the paths on which the
JS code would throw (non-string `name`/`availability`), since the caller's
per-block `catch` treats them identically. -/
def parseJsonLdProduct (fuel : Nat) (data : Json) (marketplace : String) : Option ScrapedProduct :=
  let offersOpt := getField data "offers"
  if ¬ truthyOpt offersOpt then none
  else
    match offersOpt with
    | none => none
    | some offers =>
      -- offers.price || offers[0]?.price || offers.lowPrice
      let idx0price : Option Json :=
        match getIndex0 offers with
        | some .null => none
        | some v => getField v "price"
        | none => none
      let priceOpt := jsOr (getField offers "price") (jsOr idx0price (getField offers "lowPrice"))
      -- offers.priceCurrency || offers[0]?.priceCurrency || 'SAR'
      let idx0curr : Option Json :=
        match getIndex0 offers with
        | some .null => none
        | some v => getField v "priceCurrency"
        | none => none
      let currencyVal := jsOr (getField offers "priceCurrency") (jsOr idx0curr (some (.str "SAR")))
      let nameOpt := getField data "name"
      let urlVal := jsOr (getField data "url") (getField offers "url")
      let imageVal := getField data "image"
      let availVal := getField offers "availability"
      if ¬ truthyOpt nameOpt ∨ ¬ truthyOpt priceOpt then none
      else
        match priceOpt with
        | none => none
        | some priceJson =>
          match parseFloatQ (keepDigitsDot (jsToStringFuel fuel priceJson)) with
          | none => none
          | some priceNum =>
            if priceNum ≤ 0 then none
            else
              -- the success log calls `name.slice(0, 50)`: a truthy
              -- non-string name throws, skipping the block
              match nameOpt with
              | some (.str nameStr) =>
                -- `normalizeAvailability`: falsy → unknown; truthy
                -- non-string would throw at `.toLowerCase()`
                let availRes : Option Availability :=
                  match availVal with
                  | none => some .unknown
                  | some v =>
                    if ¬ truthy v then some .unknown
                    else match v with
                         | .str s => some (normalizeAvailabilityStr s)
                         | _ => none
                match availRes with
                | none => none
                | some avail =>
                  some { name := nameStr
                         price := priceNum
                         currency := (currencyVal.map (jsToStringFuel fuel))
                         url := (match urlVal with | some (.str s) => some s | _ => none)
                         imageUrl := (match imageVal with | some (.str s) => some s | _ => none)
                         availability := some avail
                         extractionMethod := some .jsonLd
                         marketplace := marketplace }
              | _ => none

/-- One iteration of the per-block loop in `extractFromJsonLd`: strip the
script tags (our blocks already hold the inner text), `trim`, `JSON.parse`,
then try single-Product, `@graph`, and bare-array shapes in order. -/
def tryJsonLdBlock (marketplace : String) (block : String) : Option ScrapedProduct :=
  match jsonParse (trimStr block) with
  | none => none
  | some data =>
    match data with
    | .null => none  -- `data['@type']` on null throws → block skipped
    | _ =>
      let step1 := if isProductType data then parseJsonLdProduct block.length data marketplace else none
      match step1 with
      | some p => some p
      | none =>
        -- `data['@graph'] && Array.isArray(data['@graph'])`
        let step2 : Except Unit (Option ScrapedProduct) :=
          match getField data "@graph" with
          | some g =>
            if truthy g then
              match g with
              | .arr items =>
                (match findProductItem items with
                 | .error _ => .error ()
                 | .ok (some pd) => .ok (parseJsonLdProduct block.length pd marketplace)
                 | .ok none => .ok none)
              | _ => .ok none
            else .ok none
          | none => .ok none
        match step2 with
        | .error _ => none
        | .ok (some p) => some p
        | .ok none =>
          match data with
          | .arr items =>
            (match findProductItem items with
             | .error _ => none
             | .ok (some pd) => parseJsonLdProduct block.length pd marketplace
             | .ok none => none)
          | _ => none

/-- `PriceExtractor.extractFromJsonLd(html, marketplace)`. -/
def extractFromJsonLd (c : Content) (marketplace : String) : Option ScrapedProduct :=
  c.jsonLdBlocks.findSome? (tryJsonLdBlock marketplace)

/-- `PriceExtractor.extractFromOpenGraph(html, marketplace)`. -/
def extractFromOpenGraph (c : Content) (marketplace : String) : Option ScrapedProduct :=
  match c.ogPriceAmount with
  | none => none
  | some amount =>
    match parseFloatQ (keepDigitsDot amount) with
    | none => none
    | some price =>
      if price ≤ 0 then none
      else
        let name :=
          match c.ogTitle with
          | some t => if t = "" then "Unknown Product" else t
          | none => "Unknown Product"
        let currency :=
          match c.ogPriceCurrency with
          | some cu => if cu = "" then "SAR" else cu
          | none => "SAR"
        some { name := name
               price := price
               currency := some currency
               url := c.ogUrl
               imageUrl := c.ogImage
               availability := none
               extractionMethod := some .opengraph
               marketplace := marketplace }

/-- `` `${product.name.toLowerCase()}::${product.price}` `` — the
deduplication key used by the embedded-DOM, embedded-API and Google
Shopping extractors. -/
def prodKey (p : ScrapedProduct) : String :=
  toLowerStr p.name ++ "::" ++ ratToString p.price

/-- One loop iteration of `extractFromEmbeddedDomProducts`:
`(item.name || '').trim()` / `Number(item.price)` plus the validity guard.
`.error` marks the paths on which the JS code throws (caught by the
function-level `catch`, discarding all products). -/
def domItemStep (fuel : Nat) (marketplace : String) (item : Json) : Except Unit (Option ScrapedProduct) := do
  -- (item.name || '').trim()
  let name ← (match item with
    | .null => .error ()  -- null.name throws
    | _ =>
      match getField item "name" with
      | none => .ok ""
      | some v =>
        if truthy v then
          match v with
          | .str s => .ok (trimStr s)
          | _ => .error ()  -- .trim() on a truthy non-string throws
        else .ok "")
  let price := jsNumberOpt fuel (getField item "price")
  if name = "" ∨ name.length < 4 then return none
  else
    match price with
    | none => return none  -- !isFinite(NaN)
    | some p =>
      if p ≤ 0 then return none
      else
        return some { name := name
                      price := p
                      currency := some "SAR"
                      url := (match getField item "url" with | some (.str s) => some s | _ => none)
                      availability := none
                      extractionMethod := some .cssSelector
                      marketplace := marketplace }

/-- `PriceExtractor.extractFromEmbeddedDomProducts(html, marketplace)`.
A non-array parse result makes the JS either throw (caught → `[]`) or
iterate a string's characters (all filtered out), so it is modelled as
`[]`. -/
def extractFromEmbeddedDomProducts (c : Content) (marketplace : String) : List ScrapedProduct :=
  match c.domProductsBlock with
  | none => []
  | some block =>
    if block = "" then []  -- `!domMatch?.[1]`
    else
      match jsonParse block with
      | none => []  -- JSON.parse throws → catch → []
      | some (.arr items) =>
        let steps := (items.take 80).map (domItemStep block.length marketplace)
        if steps.any (fun r => match r with | .error _ => true | .ok _ => false) then []
        else
          dedupFirstByKey prodKey
            (steps.filterMap (fun r => match r with | .ok o => o | .error _ => none))
      | some _ => []

/-- `collectProductsFromApiObject(value, marketplace, output)`: recursive
walk of a parsed JSON value, emitting a candidate for every object
carrying a name-like and a price-like key, then recursing into
object/array children.  Fueled by nesting depth; call sites pass the
length of the string the value was parsed from, which always exceeds the
nesting depth. -/
def collectApiFuel (marketplace : String) : Nat → Json → List ScrapedProduct
  | 0, _ => []
  | fuel + 1, .arr items =>
    (items.map (collectApiFuel marketplace fuel)).flatten
  | fuel + 1, .obj fields =>
    let record := Json.obj fields
    let nameCandidate :=
      jsOr (getField record "name")
        (jsOr (getField record "title")
          (jsOr (getField record "product_name")
            (jsOr (getField record "productName")
              (jsOr (getField record "display_name") (getField record "label")))))
    let priceCandidate :=
      jsNullish (getField record "price")
        (jsNullish (getField record "final_price")
          (jsNullish (getField record "special_price")
            (jsNullish (getField record "sale_price")
              (jsNullish (getField record "regular_price")
                (jsNullish (getField record "min_price")
                  (jsNullish (getField record "max_price")
                    (jsNullish (getField record "amount") (getField record "value"))))))))
    let selfC : List ScrapedProduct :=
      match nameCandidate with
      | some (.str s) =>
        if 2 < (trimStr s).length then
          match priceCandidate with
          | none => []  -- priceCandidate === undefined
          | some pv =>
            match parseFloatQ (keepDigitsDot (jsToStringFuel fuel pv)) with
            | none => []
            | some numericPrice =>
              if 0 < numericPrice then
                [{ name := trimStr s
                   price := numericPrice
                   currency := (match getField record "currency" with
                                                                | some (.str cs) => some cs
                                                                | _ => some "SAR")
                   availability := none
                   extractionMethod := some .api
                   marketplace := marketplace }]
              else []
        else []
      | _ => []
    selfC ++
      (fields.map (fun kv =>
        match kv.2 with
        | .obj _ => collectApiFuel marketplace fuel kv.2
        | .arr _ => collectApiFuel marketplace fuel kv.2
        | _ => [])).flatten
  | _ + 1, _ => []


/-- `PriceExtractor.extractFromEmbeddedApiPayloads(html, marketplace)`.
Note the early `return products` when the tagged payload block is absent:
the generic `application/json` fallback scan only runs when the tagged
block exists and parses. -/
def extractFromEmbeddedApiPayloads (c : Content) (marketplace : String) : List ScrapedProduct :=
  match c.apiPayloadsBlock with
  | none => []  -- `if (!payloadMatch?.[1]) return products`
  | some block =>
    if block = "" then []
    else
      match jsonParse block with
      | none => []  -- JSON.parse throws → catch → []
      | some payloadJson =>
        let payloadProducts : Option (List ScrapedProduct) :=
          match payloadJson with
          | .arr payloadItems =>
            some ((payloadItems.take 40).flatMap (fun item =>
              let payload : Option String :=
                match item with
                | .str s => some s
                | .null => none
                | _ => (match getField item "payload" with
                        | some (.str s) => some s
                        | _ => none)
              match payload with
              | none => []
              | some p =>
                if p.length < 2 then []
                else
                  match jsonParse p with
                  | some data => collectApiFuel marketplace p.length data
                  | none => []))
          | .str _ => some []  -- string: iterates characters, all skipped
          | _ => none  -- `.slice` throws → catch → []
        match payloadProducts with
        | none => []
        | some products₁ =>
          let products₂ :=
            (c.jsonScriptBlocks.take 30).flatMap (fun b =>
              let jsonText := trimStr b
              if jsonText.length < 5 then []
              else
                match jsonParse jsonText with
                | some data => collectApiFuel marketplace jsonText.length data
                | none => [])
          dedupFirstByKey prodKey (products₁ ++ products₂)

/-- `PriceExtractor.validatePrice(price, baselinePrice?)`. -/
def validatePrice (price : ℚ) (baselinePrice : Option ℚ := none) : Bool :=
  if price ≤ 0 then false
  else if 1000000 < price then false
  else
    match baselinePrice with
    | some b =>
      -- `if (baselinePrice)`: a baseline of 0 is falsy and skips the check
      if b ≠ 0 then
        let ratio := price / b
        if ratio < 1 / 10 ∨ 10 < ratio then false else true
      else true
    | none => true

end PriceExtractor

/-! ### Extraction strategy chain

Each connector's `searchProduct` runs its strategies through the repeated
idiom `if (products.length === 0) { products.push(...strategyYield) }`.
`runChain` mirrors that sequencing and additionally records which
strategies were consulted (evaluated), for the short-circuit claims. -/

/-- The extraction strategies appearing across the connectors. -/
inductive Strategy where
  | jsonLd
  | opengraph
  | embeddedDom
  | embeddedApi
  | jsonAttributes
  | genericBlocks
  | searchResults
  | cssContainers
deriving DecidableEq, Repr

/-- Run strategies in order, stopping after the first whose yield is
non-empty; returns the consulted strategies and the resulting products. -/
def runChain (c : Content) :
    List (Strategy × (Content → List ScrapedProduct)) → List Strategy × List ScrapedProduct
  | [] => ([], [])
  | (s, f) :: rest =>
    let ps := f c
    if ps.isEmpty then
      let r := runChain c rest
      (s :: r.1, r.2)
    else ([s], ps)

theorem runChain_cons_pos (c : Content) (s : Strategy) (f : Content → List ScrapedProduct)
    (rest : List (Strategy × (Content → List ScrapedProduct))) (h : f c ≠ []) :
    runChain c ((s, f) :: rest) = ([s], f c) := by
  simp [runChain, h]

theorem runChain_cons_neg (c : Content) (s : Strategy) (f : Content → List ScrapedProduct)
    (rest : List (Strategy × (Content → List ScrapedProduct))) (h : f c = []) :
    runChain c ((s, f) :: rest) = (s :: (runChain c rest).1, (runChain c rest).2) := by
  simp [runChain, h]

/-- The connectors' final validity filter:
`p.price > 0 && p.name && p.name.length > 3`. -/
def validGuard (p : ScrapedProduct) : Bool :=
  decide (0 < p.price) && decide (p.name ≠ "") && decide (3 < p.name.length)

/-! ### JarirConnector (src: connectors/jarir.ts) -/

namespace JarirConnector
open JsModel PriceExtractor

def baseUrl : String := "https://www.jarir.com"

/-- `extractProductsFromHtml(html)`: the CSS-selector fallback over the
`product-item` container matches.  No deduplication is performed. -/
def extractProductsFromHtml (c : Content) : List ScrapedProduct :=
  c.productContainers.filterMap (fun cm =>
    -- const name = nameMatch ? nameMatch[1].trim() : null
    let name := cm.nameCapture.map trimStr
    -- priceMatch = match(data-price-amount) || match(price span);
    -- let price = 0; if (priceMatch) price = parseFloat(filtered)
    let priceRes : Option ℚ :=
      match cm.priceAttrCapture with
      | some s => parseFloatQ (keepDigitsDot s)
      | none =>
        match cm.priceSpanCapture with
        | some s => parseFloatQ (keepDigitsDot s)
        | none => some 0
    match name with
    | some n =>
      if n ≠ "" then
        match priceRes with
        | some price =>
          if 0 < price then
            some { name := n
                   price := price
                   currency := some "SAR"
                   url := (match cm.urlCapture with
                           | some u => some (if startsWithStr u "http" then u else baseUrl ++ u)
                           | none => none)
                   extractionMethod := some .cssSelector
                   marketplace := "Jarir" }
          else none
        | none => none
      else none
    | none => none)

/-- Yield of the JSON-LD strategy as a list. -/
def jsonLdYield (c : Content) : List ScrapedProduct :=
  (extractFromJsonLd c "Jarir").toList

/-- Yield of the OpenGraph strategy as a list. -/
def openGraphYield (c : Content) : List ScrapedProduct :=
  (extractFromOpenGraph c "Jarir").toList

/-- The three extraction methods of `searchProduct`, in source order. -/
def chain : List (Strategy × (Content → List ScrapedProduct)) :=
  [(.jsonLd, jsonLdYield),
   (.opengraph, openGraphYield),
   (.cssContainers, extractProductsFromHtml)]

/-- The strategies `searchProduct` consults on this content. -/
def consulted (c : Content) : List Strategy :=
  (runChain c chain).1

/-- The products accumulated before the final validity filter. -/
def rawProducts (c : Content) : List ScrapedProduct :=
  (runChain c chain).2

/-- `searchProduct(productName)`, as a function of the transport's
outcome: the `catch` block rethrows (`throw error`), a successful fetch
runs the extraction chain and the validity filter. -/
def searchProduct (fetched : Except ScraperErrorE Content) :
    Except ScraperErrorE (List ScrapedProduct) :=
  match fetched with
  | .error e => .error e
  | .ok c => .ok ((rawProducts c).filter validGuard)

/-- `getProductDetails(url)`: JSON-LD then OpenGraph, stamping the request
URL; the `catch` block swallows every error and returns `null`. -/
def getProductDetails (fetched : Except ScraperErrorE Content) (url : String) :
    Except ScraperErrorE (Option ScrapedProduct) :=
  match fetched with
  | .error _ => .ok none
  | .ok c =>
    match extractFromJsonLd c "Jarir" with
    | some p => .ok (some { p with url := some url })
    | none =>
      match extractFromOpenGraph c "Jarir" with
      | some p => .ok (some { p with url := some url })
      | none => .ok none

end JarirConnector

/-! ### JarirBrowserConnector (src: connectors/jarir-browser.ts) -/

namespace JarirBrowserConnector
open JsModel PriceExtractor

def baseUrl : String := "https://www.jarir.com"

/-- `extractFromProductJsonAttributes(html)`: JSON snippets harvested from
HTML attributes/scripts, wrapped in braces and parsed. -/
def extractFromProductJsonAttributes (c : Content) : List ScrapedProduct :=
  (c.jsonAttrSnippets.take 30).filterMap (fun snippet =>
    match jsonParse ("\x7b" ++ snippet ++ "\x7d") with
    | none => none  -- malformed snippet: ignored
    | some data =>
      -- const name = String(data.name || '').trim()
      let nameVal := jsOr (getField data "name") (some (.str ""))
      let name := trimStr (match nameVal with
        | some v => jsToStringFuel ("\x7b" ++ snippet ++ "\x7d").length v
        | none => "")
      -- const priceRaw = data.price ?? data.final_price ?? data.special_price ?? data.regular_price
      let priceRaw :=
        jsNullish (getField data "price")
          (jsNullish (getField data "final_price")
            (jsNullish (getField data "special_price") (getField data "regular_price")))
      let priceStr := match priceRaw with
        | some v => jsToStringFuel ("\x7b" ++ snippet ++ "\x7d").length v
        | none => "undefined"
      match parseFloatQ (keepDigitsDot priceStr) with
      | none => none
      | some price =>
        if 3 < name.length ∧ 0 < price then
          some { name := name
                 price := price
                 currency := some "SAR"
                 marketplace := "Jarir"
                 extractionMethod := some .api }
        else none)

/-- `extractFromGenericProductBlocks(html)`: product-link anchors with a
price found in the surrounding neighborhood. -/
def extractFromGenericProductBlocks (c : Content) : List ScrapedProduct :=
  (c.genericLinks.take 80).filterMap (fun gl =>
    let anchorText := cleanAnchorText gl.anchorHtml
    -- const price = priceMatch ? parseFloat(priceMatch[1].replace(/,/g, '')) : 0
    let priceParsed : Option ℚ := gl.priceCapture.bind (fun s => parseFloatQ (removeCommas s))
    match priceParsed with
    | none => none  -- covers both `!price` (0 from no match) and `Number.isNaN`
    | some p =>
      if anchorText = "" ∨ anchorText.length < 4 ∨ p = 0 then none
      else
        some { name := anchorText
               price := p
               currency := some "SAR"
               url := some (if startsWithStr gl.urlCapture "http" then gl.urlCapture
                            else baseUrl ++ gl.urlCapture)
               marketplace := "Jarir"
               extractionMethod := some .cssSelector })

/-- `extractFromSearchResults(html)`: Magento `product-item` containers,
first 10; price from the `data-price-amount` attribute (raw `parseFloat`),
falling back to the price span (digit-filtered) only when the attribute
price is exactly 0.  No deduplication is performed. -/
def extractFromSearchResults (c : Content) : List ScrapedProduct :=
  (c.productContainers.take 10).filterMap (fun cm =>
    let name := cm.nameCapture.map trimStr
    let price0 : Option ℚ :=
      match cm.priceAttrCapture with
      | some s => parseFloatQ s
      | none => some 0
    let price1 : Option ℚ :=
      if price0 = some 0 then
        match cm.priceSpanCapture with
        | some s => parseFloatQ (keepDigitsDot s)
        | none => some 0
      else price0
    match name with
    | some n =>
      if n ≠ "" then
        match price1 with
        | some p =>
          if 0 < p then
            some { name := n
                   price := p
                   currency := some "SAR"
                   url := (match cm.urlCapture with
                           | some u => some (if startsWithStr u "http" then u else baseUrl ++ u)
                           | none => none)
                   extractionMethod := some .cssSelector
                   marketplace := "Jarir" }
          else none
        | none => none
      else none
    | none => none)

/-- The six fallback strategies of `searchProduct`, in source order. -/
def chain : List (Strategy × (Content → List ScrapedProduct)) :=
  [(.jsonLd, fun c => (extractFromJsonLd c "Jarir").toList),
   (.opengraph, fun c => (extractFromOpenGraph c "Jarir").toList),
   (.embeddedDom, fun c => extractFromEmbeddedDomProducts c "Jarir"),
   (.embeddedApi, fun c => extractFromEmbeddedApiPayloads c "Jarir"),
   (.jsonAttributes, extractFromProductJsonAttributes),
   (.genericBlocks, extractFromGenericProductBlocks),
   (.searchResults, extractFromSearchResults)]

/-- The strategies `searchProduct` consults on this content. -/
def consulted (c : Content) : List Strategy :=
  (runChain c chain).1

/-- The products accumulated before the final validity filter. -/
def rawProducts (c : Content) : List ScrapedProduct :=
  (runChain c chain).2

/-- `searchProduct` as a function of the transport outcome; the `catch`
block rethrows. -/
def searchProduct (fetched : Except ScraperErrorE Content) :
    Except ScraperErrorE (List ScrapedProduct) :=
  match fetched with
  | .error e => .error e
  | .ok c => .ok ((rawProducts c).filter validGuard)

/-- `getProductDetails(url)`: JSON-LD then OpenGraph; the `catch` block
swallows every error and returns `null`. -/
def getProductDetails (fetched : Except ScraperErrorE Content) (url : String) :
    Except ScraperErrorE (Option ScrapedProduct) :=
  match fetched with
  | .error _ => .ok none
  | .ok c =>
    match extractFromJsonLd c "Jarir" with
    | some p => .ok (some { p with url := some url })
    | none =>
      match extractFromOpenGraph c "Jarir" with
      | some p => .ok (some { p with url := some url })
      | none => .ok none

end JarirBrowserConnector

/-! ### GoogleShoppingConnector (src: connectors/google-shopping.ts) -/

namespace GoogleShoppingConnector
open JsModel PriceExtractor

/-- `decodeEntities(input)`: five sequential global replaces. -/
def decodeEntities (input : String) : String :=
  replaceAllStr (replaceAllStr (replaceAllStr (replaceAllStr (replaceAllStr input
    "&amp;" "&") "&quot;" "\"") "&#39;" "'") "&lt;" "<") "&gt;" ">"

/-- `stripTags(input)`. -/
def stripTags (input : String) : String :=
  decodeEntities (String.mk (collapseWs (stripTagsOnce input.data)))

/-- `extractTitle(anchorHtml, neighborhood)`. -/
def extractTitle (card : GoogleCard) : Option String :=
  let fromAnchor := trimStr (stripTags card.anchorHtml)
  if 4 < fromAnchor.length then some fromAnchor
  else
    match card.titleFallbackCapture with
    | some f => if f ≠ "" then some (trimStr (decodeEntities f)) else none
    | none => none

/-- `extractPrice(neighborhood)`: first pattern whose capture parses to a
positive number. -/
def extractPrice (card : GoogleCard) : Option ℚ :=
  card.priceCaptures.findSome? (fun capture =>
    if capture ≠ "" then
      match parseFloatQ (removeCommas capture) with
      | some v => if 0 < v then some v else none
      | none => none
    else none)

/-- `normalizeUrl(raw)`. -/
def normalizeUrl (raw : String) : String :=
  if raw = "" then "https://www.google.com"
  else
    let decoded := decodeEntities raw
    if startsWithStr decoded "http" then decoded
    else if startsWithStr decoded "/" then "https://www.google.com" ++ decoded
    else "https://www.google.com/" ++ decoded

/-- `extractFromGoogleShoppingHtml(html)`: up to 120 cards, validity guard
per card, then `(lowercase(name), price)` dedup and a cap of 30. -/
def extractFromGoogleShoppingHtml (c : Content) : List ScrapedProduct :=
  let products := (c.googleCards.take 120).filterMap (fun card =>
    let href := normalizeUrl card.hrefCapture
    let title := extractTitle card
    let price := extractPrice card
    match title, price with
    | some t, some p =>
      if t = "" ∨ t.length < 4 then none
      else
        some { name := t
               price := p
               currency := some "SAR"
               url := some href
               marketplace := "Google Shopping"
               extractionMethod := some .cssSelector }
    | _, _ => none)
  (dedupFirstByKey prodKey products).take 30

/-- `searchProduct`: no try/catch — a transport failure propagates, a
success maps straight through the extractor. -/
def searchProduct (fetched : Except ScraperErrorE Content) :
    Except ScraperErrorE (List ScrapedProduct) :=
  fetched.map extractFromGoogleShoppingHtml

end GoogleShoppingConnector

/-! ### HTTPScraper (src: scrapers/http-scraper.ts) -/

namespace HTTPScraper
open JsModel

/-- The block-page indicator list of `isBlockedResponse`. -/
def blockIndicators : List String :=
  ["captcha", "recaptcha", "hcaptcha",
   "access denied", "blocked", "suspicious activity", "unusual traffic",
   "cf-ray", "cloudflare",
   "distil networks", "perimeter x", "incapsula"]

/-- `isBlockedResponse(html)`: case-insensitive substring scan. -/
def isBlockedResponse (html : String) : Bool :=
  let lowerHtml := toLowerStr html
  blockIndicators.any (fun ind => containsSubstr lowerHtml ind)

/-- What the awaited network operation did: delivered a response (with
status, status text and body), or threw. -/
inductive FetchEvent where
  | response (status : Nat) (statusText : String) (body : String)
  | thrown (t : Thrown)
deriving Repr

/-- `HTTPScraper.fetch(url, options)` as a function of the network outcome
and the elapsed duration (used only in the timeout message):
non-2xx statuses map to `BLOCKED` (403/429) or `NETWORK_ERROR`; a 2xx body
matching a block indicator maps to `BLOCKED`; the `catch` block turns an
`AbortError` into `TIMEOUT`, rethrows `ScraperError`s unchanged and wraps
anything else as `UNKNOWN`. -/
def fetch (ev : FetchEvent) (durationMs : Nat) : Except ScraperErrorE String :=
  match ev with
  | .response status statusText body =>
    if ¬ (200 ≤ status ∧ status < 300) then
      .error { message := s!"HTTP {status}: {statusText}"
               code := if status = 403 ∨ status = 429 then .BLOCKED else .NETWORK_ERROR }
    else if isBlockedResponse body then
      .error { message := "Blocked by anti-bot protection (CAPTCHA detected)", code := .BLOCKED }
    else .ok body
  | .thrown t =>
    match t with
    | .scraperErr e => .error e
    | .jsError name msg =>
      if name = "AbortError" then
        .error { message := s!"Request timeout after {durationMs}ms", code := .TIMEOUT }
      else .error { message := msg, code := .UNKNOWN }
    | .nonError => .error { message := "Unknown error", code := .UNKNOWN }

end HTTPScraper

/-! ### BrowserScraperV2 (src: browser-scraper-v2.ts; the revision that
also captures DOM products, i.e. the spec's canonical one) -/

namespace BrowserScraperV2

/-- Which internal step of a `fetch` call fails, and how: `launchFail`
models `puppeteer.launch` throwing (before a browser exists); `bodyResult`
is everything from a successful launch up to (not including) the final
`browser.close()` — navigation, waits, harvesting, serialization — either
yielding the content to return or throwing; `closeFail` makes each
`browser.close()` call throw. -/
structure FetchEnv where
  launchFail : Option Thrown := none
  bodyResult : Except Thrown Content := .ok emptyContent
  closeFail : Option Thrown := none

/-- Outcome of a `fetch` call: the returned/raised value, whether a
browser was ever acquired, and how many `browser.close()` calls ran. -/
structure FetchOutcome where
  result : Except ScraperErrorE Content
  browserAcquired : Bool
  closeCalls : Nat
deriving Repr

/-- The `catch` block's rethrow: `new ScraperError(error instanceof Error ?
error.message : 'Unknown error', 'UNKNOWN', undefined, ...)`.  Note the
kind is always `UNKNOWN` — there is no `instanceof ScraperError` check. -/
def wrapUnknown : Thrown → ScraperErrorE
  | .scraperErr e => { message := e.message, code := .UNKNOWN }
  | .jsError _ m => { message := m, code := .UNKNOWN }
  | .nonError => { message := "Unknown error", code := .UNKNOWN }

/-- `BrowserScraperV2.fetch` control flow: on success `await
browser.close()` then return; on any thrown error the `catch` block runs
`if (browser) await browser.close().catch(() => {})` (close errors
swallowed) and rethrows via `wrapUnknown`.  A close error on the success
path lands in the same `catch`, which closes again (harmlessly) and
rethrows the close error wrapped. -/
def fetch (env : FetchEnv) : FetchOutcome :=
  match env.launchFail with
  | some t => { result := .error (wrapUnknown t), browserAcquired := false, closeCalls := 0 }
  | none =>
    match env.bodyResult with
    | .ok content =>
      (match env.closeFail with
       | none => { result := .ok content, browserAcquired := true, closeCalls := 1 }
       | some t => { result := .error (wrapUnknown t), browserAcquired := true, closeCalls := 2 })
    | .error t =>
      { result := .error (wrapUnknown t), browserAcquired := true, closeCalls := 1 }

/-- `{ url, payload }` pair captured by the response listener. -/
structure ApiPayload where
  url : String
  payload : String
deriving DecidableEq, Repr

def payloadJson (p : ApiPayload) : Json :=
  .obj [("url", .str p.url), ("payload", .str p.payload)]

/-- `{ name, price, url? }` triple harvested by the in-page DOM query. -/
structure DomProduct where
  name : String
  price : ℚ
  url : Option String := none
deriving DecidableEq, Repr

def domProductJson (d : DomProduct) : Json :=
  .obj ([("name", .str d.name), ("price", .num d.price)] ++
    (match d.url with | some u => [("url", .str u)] | none => []))

/-- `new Map(xs.map(x => [key(x), x]))` deduplication: keys keep their
first-occurrence position, values are the last with that key. -/
def mapCtorDedupKeys {α : Type} (key : α → String) (xs : List α) : List α :=
  (dedupFirstByKey key xs).map (fun x => ((xs.reverse.find? (fun y => key y = key x)).getD x))

/-- `uniquePayloads`: Map-constructor dedup on `` `${url}::${payload.length}` ``
then `.slice(0, 40)`. -/
def uniquePayloads (apiPayloads : List ApiPayload) : List ApiPayload :=
  (mapCtorDedupKeys (fun p => p.url ++ "::" ++ toString p.payload.length) apiPayloads).take 40

/-- The serialization step at the end of a successful `fetch` (the
conditional appends of the `__SCRAPER_API_PAYLOADS__`,
`__SCRAPER_API_ENDPOINTS__`, `__SCRAPER_RESOURCE_URLS__` and
`__SCRAPER_DOM_PRODUCTS__` script blocks): each blob is
`btoa(unescape(encodeURIComponent(JSON.stringify(...))))`.  All four
appended scripts carry `type="application/json"`, so they also appear
among the generic JSON script blocks. -/
def serializeBlocks (apiPayloads : List ApiPayload) (resourceUrls : List String)
    (domProducts : List DomProduct) (base : Content) : Content :=
  let c := base
  let c :=
    if apiPayloads ≠ [] then
      let uniq := uniquePayloads apiPayloads
      let payloadBlob := btoaUtf8Stringify (.arr (uniq.map payloadJson))
      let endpointBlob := btoaUtf8Stringify (.arr (uniq.map (fun p => Json.str p.url)))
      { c with apiPayloadsBlock := some payloadBlob
               jsonScriptBlocks := c.jsonScriptBlocks ++ [payloadBlob, endpointBlob] }
    else c
  let c :=
    if resourceUrls ≠ [] then
      let blob := btoaUtf8Stringify (.arr (resourceUrls.map Json.str))
      { c with resourceUrlsBlock := some blob
               jsonScriptBlocks := c.jsonScriptBlocks ++ [blob] }
    else c
  let c :=
    if domProducts ≠ [] then
      let blob := btoaUtf8Stringify (.arr (domProducts.map domProductJson))
      { c with domProductsBlock := some blob
               jsonScriptBlocks := c.jsonScriptBlocks ++ [blob] }
    else c
  c

end BrowserScraperV2

/-! ### Shared proof helpers -/

/-- Equal `(lowercase(name), price)` pairs give equal dedup keys, so
key-distinctness implies pair-distinctness. -/
theorem pairwise_prodKey_imp {l : List ScrapedProduct}
    (h : l.Pairwise (fun a b => PriceExtractor.prodKey a ≠ PriceExtractor.prodKey b)) :
    l.Pairwise (fun a b => ¬ (JsModel.toLowerStr a.name = JsModel.toLowerStr b.name ∧ a.price = b.price)) :=
  h.imp (fun hk hab => hk (by unfold PriceExtractor.prodKey; rw [hab.1, hab.2]))

/-- Every output of `extractFromEmbeddedDomProducts` has pairwise-distinct
dedup keys (each branch is either `[]` or a `dedupFirstByKey`). -/
theorem embeddedDom_pairwise_keys (c : Content) (m : String) :
    (PriceExtractor.extractFromEmbeddedDomProducts c m).Pairwise
      (fun a b => PriceExtractor.prodKey a ≠ PriceExtractor.prodKey b) := by
  unfold PriceExtractor.extractFromEmbeddedDomProducts
  repeat'
    first
      | exact List.Pairwise.nil
      | exact dedupFirstByKey_pairwise _ _
      | split
      | dsimp only

/-- Every output of `extractFromEmbeddedApiPayloads` has pairwise-distinct
dedup keys. -/
theorem embeddedApi_pairwise_keys (c : Content) (m : String) :
    (PriceExtractor.extractFromEmbeddedApiPayloads c m).Pairwise
      (fun a b => PriceExtractor.prodKey a ≠ PriceExtractor.prodKey b) := by
  unfold PriceExtractor.extractFromEmbeddedApiPayloads
  repeat'
    first
      | exact List.Pairwise.nil
      | exact dedupFirstByKey_pairwise _ _
      | split
      | dsimp only

/-- The positivity invariant of `GoogleShoppingConnector.extractPrice`. -/
theorem google_extractPrice_pos (card : GoogleCard) (v : ℚ)
    (h : GoogleShoppingConnector.extractPrice card = some v) : 0 < v := by
  unfold GoogleShoppingConnector.extractPrice at h
  obtain ⟨cap, hmem, hcap⟩ := List.exists_of_findSome?_eq_some h
  split at hcap
  · split at hcap
    · split at hcap
      · cases hcap; assumption
      · cases hcap
    · cases hcap
  · cases hcap

/-- Every element of `extractFromGoogleShoppingHtml` passes the per-card
validity guard. -/
theorem google_extract_mem_valid (c : Content) (p : ScrapedProduct)
    (hp : p ∈ GoogleShoppingConnector.extractFromGoogleShoppingHtml c) :
    0 < p.price ∧ 3 < p.name.length := by
  unfold GoogleShoppingConnector.extractFromGoogleShoppingHtml at hp
  have hp1 := List.mem_of_mem_take hp
  have hp2 := (dedupFirstByKey_sublist _ _).subset hp1
  rw [List.mem_filterMap] at hp2
  obtain ⟨card, _, hf⟩ := hp2
  simp only at hf
  split at hf
  case _ t pr ht hpr =>
    split at hf
    · cases hf
    case _ hguard =>
      cases hf
      push_neg at hguard
      refine ⟨google_extractPrice_pos card pr hpr, ?_⟩
      show 3 < t.length
      omega
  case _ => cases hf

/-! ### C1 -/

/-- C1.  For every `BrowserScraperV2.fetch` call, the browser acquired at
the start is closed before the call returns or re-raises, on every exit
path: whenever a browser was acquired at least one `browser.close()` runs;
a browser is acquired exactly when `puppeteer.launch` succeeds; and on the
error path the `close` call's own errors are swallowed — the original body
error (wrapped) is what gets re-raised, with the close still counted. -/
theorem browser_fetch_closes_on_every_path (env : BrowserScraperV2.FetchEnv) :
    ((BrowserScraperV2.fetch env).browserAcquired = true →
       1 ≤ (BrowserScraperV2.fetch env).closeCalls) ∧
    (env.launchFail = none → (BrowserScraperV2.fetch env).browserAcquired = true) ∧
    (∀ t, env.launchFail = none → env.bodyResult = .error t →
       (BrowserScraperV2.fetch env).result = .error (BrowserScraperV2.wrapUnknown t) ∧
       1 ≤ (BrowserScraperV2.fetch env).closeCalls) := by
  obtain ⟨lf, br, cf⟩ := env
  refine ⟨?_, ?_, ?_⟩
  · rcases lf with _ | t <;> rcases br with t' | content <;> rcases cf with _ | t'' <;>
      simp [BrowserScraperV2.fetch]
  · rcases lf with _ | t <;> rcases br with t' | content <;> rcases cf with _ | t'' <;>
      simp [BrowserScraperV2.fetch]
  · intro t hl hb
    subst hl
    cases hb
    rcases cf with _ | t'' <;> simp [BrowserScraperV2.fetch]

/-- Concrete run for C1: navigation times out and even the `browser.close`
in the catch block fails; the call still counts a close and re-raises the
navigation error. -/
def c1Env : BrowserScraperV2.FetchEnv :=
  { launchFail := none
    bodyResult := .error (.jsError "TimeoutError" "Navigation timeout of 20000 ms exceeded")
    closeFail := some (.jsError "Error" "close failed") }

theorem browser_fetch_closes_on_every_path_witness :
    (BrowserScraperV2.fetch c1Env).result =
      .error (BrowserScraperV2.wrapUnknown
        (.jsError "TimeoutError" "Navigation timeout of 20000 ms exceeded")) ∧
    1 ≤ (BrowserScraperV2.fetch c1Env).closeCalls :=
  (browser_fetch_closes_on_every_path c1Env).2.2 _ rfl rfl

/-! ### C7 -/

/-- A body failure that is already a typed `ScraperError` of kind
`BLOCKED`. -/
def c7Env : BrowserScraperV2.FetchEnv :=
  { bodyResult := .error (.scraperErr { message := "Access blocked", code := .BLOCKED }) }

/-- C7 counterexample.  The claim says an already-recognized `ScraperError`
is re-raised unchanged (keeping its kind); but the catch block of
`BrowserScraperV2.fetch` has no `instanceof ScraperError` check — the
caught `BLOCKED` error is re-wrapped with kind `UNKNOWN` (message kept). -/
theorem browser_fetch_rewrap_counterexample :
    (BrowserScraperV2.fetch c7Env).result ≠
      .error { message := "Access blocked", code := .BLOCKED } ∧
    (BrowserScraperV2.fetch c7Env).result =
      .error { message := "Access blocked", code := .UNKNOWN } := by
  constructor
  · intro h
    simp [BrowserScraperV2.fetch, c7Env, BrowserScraperV2.wrapUnknown] at h
  · rfl

/-- C7 (amended).  Every error `BrowserScraperV2.fetch` raises has kind
`UNKNOWN` — even a caught typed `ScraperError` is re-wrapped (only its
message survives); for a body failure the raised error is exactly the
`wrapUnknown` of the thrown value. -/
theorem browser_fetch_rewraps_all_as_unknown (env : BrowserScraperV2.FetchEnv) :
    (∀ e, (BrowserScraperV2.fetch env).result = .error e → e.code = .UNKNOWN) ∧
    (∀ t, env.launchFail = none → env.bodyResult = .error t →
       (BrowserScraperV2.fetch env).result = .error (BrowserScraperV2.wrapUnknown t)) := by
  obtain ⟨lf, br, cf⟩ := env
  constructor
  · intro e he
    rcases lf with _ | t <;> rcases br with t' | content <;> rcases cf with _ | t'' <;>
      simp [BrowserScraperV2.fetch] at he <;>
      first
        | (rw [← he]; cases t <;> rfl)
        | (rw [← he]; cases t' <;> rfl)
        | (rw [← he]; cases t'' <;> rfl)
        | cases he
  · intro t hl hb
    subst hl
    cases hb
    rcases cf with _ | t'' <;> simp [BrowserScraperV2.fetch]

theorem browser_fetch_rewraps_all_as_unknown_witness :
    (BrowserScraperV2.fetch c7Env).result =
      .error (BrowserScraperV2.wrapUnknown
        (.scraperErr { message := "Access blocked", code := .BLOCKED })) :=
  (browser_fetch_rewraps_all_as_unknown c7Env).2 _ rfl rfl

/-! ### C8 -/

/-- A transport-level `ScraperError` (as `HTTPScraper` raises for a 403). -/
def c8Err : ScraperErrorE := { message := "HTTP 403: Forbidden", code := .BLOCKED }

/-- C8 counterexample.  The claim says `getProductDetails` propagates
transport `ScraperError`s; both Jarir connectors' `getProductDetails`
instead catch every error and return `null` (`.ok none`). -/
theorem getProductDetails_swallows_counterexample :
    JarirConnector.getProductDetails (.error c8Err) "https://www.jarir.com/p/1" = .ok none ∧
    JarirBrowserConnector.getProductDetails (.error c8Err) "https://www.jarir.com/p/1" = .ok none ∧
    (Except.ok none : Except ScraperErrorE (Option ScrapedProduct)) ≠ .error c8Err := by
  refine ⟨rfl, rfl, by simp⟩

/-- C8 (amended).  `searchProduct` of both Jarir connectors re-raises every
transport `ScraperError` unchanged; `getProductDetails` of both swallows
every transport error and returns `null`. -/
theorem jarir_search_propagates_details_swallow :
    (∀ e : ScraperErrorE,
       JarirConnector.searchProduct (.error e) = .error e ∧
       JarirBrowserConnector.searchProduct (.error e) = .error e) ∧
    (∀ (e : ScraperErrorE) (url : String),
       JarirConnector.getProductDetails (.error e) url = .ok none ∧
       JarirBrowserConnector.getProductDetails (.error e) url = .ok none) := by
  exact ⟨fun e => ⟨rfl, rfl⟩, fun e url => ⟨rfl, rfl⟩⟩

/-! ### C9 -/

/-- C9.  A request-based-transport response with a 2xx status whose body
contains "captcha" (case-insensitively) makes `HTTPScraper.fetch` raise a
`BLOCKED` `ScraperError` rather than return the body. -/
theorem http_fetch_blocked_on_captcha_body (status : Nat) (statusText body : String)
    (durationMs : Nat) (hok : 200 ≤ status ∧ status < 300)
    (h : JsModel.containsSubstr (JsModel.toLowerStr body) "captcha" = true) :
    HTTPScraper.fetch (.response status statusText body) durationMs =
      .error { message := "Blocked by anti-bot protection (CAPTCHA detected)"
               code := .BLOCKED } := by
  have hb : HTTPScraper.isBlockedResponse body = true := by
    unfold HTTPScraper.isBlockedResponse HTTPScraper.blockIndicators
    simp [h]
  unfold HTTPScraper.fetch
  dsimp only
  rw [if_neg (by simpa using hok), if_pos hb]

theorem http_fetch_blocked_on_captcha_body_witness :
    HTTPScraper.fetch
      (.response 200 "OK" "<html>Please complete the CAPTCHA to continue</html>") 1200 =
      .error { message := "Blocked by anti-bot protection (CAPTCHA detected)"
               code := .BLOCKED } :=
  http_fetch_blocked_on_captcha_body 200 "OK" _ 1200 (by omega) (by decide)

/-! ### C10 -/

/-- C10 counterexample.  The claim quantifies over every supplied baseline,
but `if (baselinePrice)` treats the supplied baseline 0 as absent: for
price 50 and baseline 0 the ratio (`Infinity` in JS, 0 in `ℚ` — outside
`[0.1, 10]` either way) should make the claim return false, yet
`validatePrice(50, 0) = true`. -/
theorem validatePrice_zero_baseline_counterexample :
    PriceExtractor.validatePrice 50 (some 0) = true ∧
    ¬ (∀ price b : ℚ, (price / b < 1 / 10 ∨ 10 < price / b) →
        PriceExtractor.validatePrice price (some b) = false) := by
  have hv : PriceExtractor.validatePrice 50 (some 0) = true := by decide
  refine ⟨hv, fun h => ?_⟩
  have h50 := h 50 0 (Or.inl (by norm_num))
  rw [hv] at h50
  cases h50

/-- C10 (amended).  `validatePrice` is false for out-of-range prices; for a
supplied nonzero baseline it is false exactly when the ratio leaves
`[0.1, 10]`; a baseline of 0 (falsy) or no baseline skips the ratio check;
and the spec's five test vectors hold. -/
theorem validatePrice_spec :
    (∀ price : ℚ, (price ≤ 0 ∨ 1000000 < price) →
       ∀ b : Option ℚ, PriceExtractor.validatePrice price b = false) ∧
    (∀ price b : ℚ, 0 < price → price ≤ 1000000 → b ≠ 0 →
       (PriceExtractor.validatePrice price (some b) = false ↔
         (price / b < 1 / 10 ∨ 10 < price / b))) ∧
    (∀ price : ℚ, 0 < price → price ≤ 1000000 →
       PriceExtractor.validatePrice price none = true ∧
       PriceExtractor.validatePrice price (some 0) = true) ∧
    PriceExtractor.validatePrice 5 (some 100) = false ∧
    PriceExtractor.validatePrice 95 (some 100) = true ∧
    PriceExtractor.validatePrice 1050 (some 100) = false ∧
    PriceExtractor.validatePrice (-1) none = false ∧
    PriceExtractor.validatePrice 2000000 none = false := by
  refine ⟨?_, ?_, ?_, by decide, by decide, by decide, by decide, by decide⟩
  · intro price h b
    unfold PriceExtractor.validatePrice
    rcases h with h | h
    · rw [if_pos h]
    · by_cases h0 : price ≤ 0
      · rw [if_pos h0]
      · rw [if_neg h0, if_pos h]
  · intro price b h1 h2 hb
    unfold PriceExtractor.validatePrice
    rw [if_neg (not_le.mpr h1), if_neg (not_lt.mpr h2)]
    simp only [if_pos hb]
    by_cases hc : price / b < 1 / 10 ∨ 10 < price / b
    · rw [if_pos hc]; simpa using hc
    · rw [if_neg hc]; simpa using hc
  · intro price h1 h2
    constructor
    · unfold PriceExtractor.validatePrice
      rw [if_neg (not_le.mpr h1), if_neg (not_lt.mpr h2)]
    · unfold PriceExtractor.validatePrice
      rw [if_neg (not_le.mpr h1), if_neg (not_lt.mpr h2)]
      simp

theorem validatePrice_spec_witness :
    PriceExtractor.validatePrice 95 (some 100) = false ↔
      ((95 : ℚ) / 100 < 1 / 10 ∨ 10 < (95 : ℚ) / 100) :=
  validatePrice_spec.2.1 95 100 (by norm_num) (by norm_num) (by norm_num)

/-! ### C6 -/

/-- The spec's structured-data test vector, as the inner text of an
`application/ld+json` script block. -/
def iphoneJsonLdBlock : String :=
  "\x7b\"@type\":\"Product\",\"name\":\"iPhone 14\",\"offers\":\x7b\"price\":\"3999\",\"priceCurrency\":\"SAR\"\x7d\x7d"

def iphoneContent : Content := { emptyContent with jsonLdBlocks := [iphoneJsonLdBlock] }

/-- C6.  On content containing the spec's structured-data block, the
structured-data extractor returns exactly one record: name "iPhone 14",
price 3999, currency "SAR", and the structured-data extraction method
(which the code spells `'json-ld'`). -/
theorem extractFromJsonLd_iphone14 :
    PriceExtractor.extractFromJsonLd iphoneContent "Jarir" =
      some { name := "iPhone 14"
             price := 3999
             currency := some "SAR"
             url := none
             imageUrl := none
             availability := some .unknown
             extractionMethod := some .jsonLd
             marketplace := "Jarir" } := by
  rfl

/-! ### C3 -/

/-- A `product-item` container whose name anchor and `data-price-amount`
attribute are both captured; repeating it twice models a page listing the
same product card twice. -/
def c3Container : ContainerMatch :=
  { nameCapture := some "Asus Laptop 15", priceAttrCapture := some "2500" }

def c3Content : Content := { emptyContent with productContainers := [c3Container, c3Container] }

def c3Product : ScrapedProduct :=
  { name := "Asus Laptop 15"
    price := 2500
    currency := some "SAR"
    extractionMethod := some .cssSelector
    marketplace := "Jarir" }

/-- C3 counterexample.  The pattern-matching (CSS-selector) path of
`JarirConnector` performs no deduplication: on content with two identical
product containers, `searchProduct` returns the same
`(lowercase(name), price)` record twice. -/
theorem jarir_css_duplicates_counterexample :
    JarirConnector.searchProduct (.ok c3Content) = .ok [c3Product, c3Product] ∧
    ¬ (([c3Product, c3Product] : List ScrapedProduct).Pairwise
        (fun a b => ¬ (JsModel.toLowerStr a.name = JsModel.toLowerStr b.name ∧ a.price = b.price))) := by
  constructor
  · rfl
  · intro h
    exact (List.pairwise_cons.mp h).1 c3Product (by simp) ⟨rfl, rfl⟩

/-- C3 (amended).  The embedded-DOM, embedded-API and Google Shopping
extraction paths do deduplicate by `(lowercase(name), price)` (first-seen
wins): no two elements of their outputs share the pair; the Jarir
connectors' pattern-matching paths perform no deduplication (see the
counterexample). -/
theorem deduped_paths_pairwise_distinct :
    (∀ (c : Content) (m : String),
       (PriceExtractor.extractFromEmbeddedDomProducts c m).Pairwise
         (fun a b => ¬ (JsModel.toLowerStr a.name = JsModel.toLowerStr b.name ∧ a.price = b.price))) ∧
    (∀ (c : Content) (m : String),
       (PriceExtractor.extractFromEmbeddedApiPayloads c m).Pairwise
         (fun a b => ¬ (JsModel.toLowerStr a.name = JsModel.toLowerStr b.name ∧ a.price = b.price))) ∧
    (∀ (fetched : Except ScraperErrorE Content) (out : List ScrapedProduct),
       GoogleShoppingConnector.searchProduct fetched = .ok out →
       out.Pairwise (fun a b => ¬ (JsModel.toLowerStr a.name = JsModel.toLowerStr b.name ∧ a.price = b.price))) := by
  refine ⟨fun c m => pairwise_prodKey_imp (embeddedDom_pairwise_keys c m),
          fun c m => pairwise_prodKey_imp (embeddedApi_pairwise_keys c m),
          fun fetched out h => ?_⟩
  rcases fetched with e | c
  · simp [GoogleShoppingConnector.searchProduct, Except.map] at h
  · simp only [GoogleShoppingConnector.searchProduct, Except.map, Except.ok.injEq] at h
    subst h
    unfold GoogleShoppingConnector.extractFromGoogleShoppingHtml
    exact ((pairwise_prodKey_imp (dedupFirstByKey_pairwise _ _)).sublist (List.take_sublist _ _))

theorem deduped_paths_pairwise_distinct_witness :
    ([] : List ScrapedProduct).Pairwise
      (fun a b => ¬ (JsModel.toLowerStr a.name = JsModel.toLowerStr b.name ∧ a.price = b.price)) :=
  deduped_paths_pairwise_distinct.2.2 (.ok emptyContent) [] rfl

/-! ### C5 -/

/-- A DOM-product candidate as captured by the transport's in-page query. -/
def c5DomProducts : List BrowserScraperV2.DomProduct :=
  [{ name := "Test Phone Pro", price := 100 }]

/-- An API payload as captured by the transport's response listener. -/
def c5ApiPayloads : List BrowserScraperV2.ApiPayload :=
  [{ url := "https://www.jarir.com/api/catalogv2/search"
     payload := "\x7b\"products\":[\x7b\"name\":\"Test Phone Pro\",\"price\":\"100\"\x7d]\x7d" }]

/-- The content the scripted-browser transport returns after appending its
tagged data blocks for these captures. -/
def c5Fetched : Content :=
  BrowserScraperV2.serializeBlocks c5ApiPayloads [] c5DomProducts emptyContent

/-- The same DOM-product block serialized WITHOUT the base64 step. -/
def c5PlainBlock : String :=
  jsonStringifyFuel serializeDepth (.arr (c5DomProducts.map BrowserScraperV2.domProductJson))

def c5PlainContent : Content := { emptyContent with domProductsBlock := some c5PlainBlock }

set_option maxRecDepth 100000 in
/-- C5 (code bug).  `BrowserScraperV2.fetch` base64-encodes every embedded
block (`btoa(unescape(encodeURIComponent(JSON.stringify(...))))`), but
`extractFromEmbeddedDomProducts` / `extractFromEmbeddedApiPayloads`
`JSON.parse` the raw block text with no base64 decoding: parsing fails and
both extractors return `[]`, losing every embedded candidate.  The last
two conjuncts are the control: without the base64 step the same block
round-trips and the DOM candidate is recovered. -/
theorem embedded_blocks_base64_mismatch :
    c5DomProducts ≠ [] ∧ c5ApiPayloads ≠ [] ∧
    PriceExtractor.extractFromEmbeddedDomProducts c5Fetched "Jarir" = [] ∧
    PriceExtractor.extractFromEmbeddedApiPayloads c5Fetched "Jarir" = [] ∧
    jsonParse c5PlainBlock =
      some (.arr (c5DomProducts.map BrowserScraperV2.domProductJson)) ∧
    PriceExtractor.extractFromEmbeddedDomProducts c5PlainContent "Jarir" =
      [{ name := "Test Phone Pro", price := 100, currency := some "SAR",
         extractionMethod := some .cssSelector, marketplace := "Jarir" }] := by
  refine ⟨by simp [c5DomProducts], by simp [c5ApiPayloads], by rfl, by rfl, by rfl, by rfl⟩

/-! ### C2 -/

/-- C2.  Every product in a list returned by `searchProduct` of
`JarirConnector`, `JarirBrowserConnector` or `GoogleShoppingConnector`
has a positive price and a name longer than 3 characters. -/
theorem connectors_returned_products_valid
    (fetched : Except ScraperErrorE Content) (out : List ScrapedProduct)
    (h : JarirConnector.searchProduct fetched = .ok out ∨
         JarirBrowserConnector.searchProduct fetched = .ok out ∨
         GoogleShoppingConnector.searchProduct fetched = .ok out) :
    ∀ p ∈ out, 0 < p.price ∧ 3 < p.name.length := by
  intro p hp
  rcases fetched with e | c
  · rcases h with h | h | h <;>
      simp [JarirConnector.searchProduct, JarirBrowserConnector.searchProduct,
            GoogleShoppingConnector.searchProduct, Except.map] at h
  · rcases h with h | h | h
    · simp only [JarirConnector.searchProduct, Except.ok.injEq] at h
      subst h
      have hb := List.of_mem_filter hp
      simp only [validGuard, Bool.and_eq_true, decide_eq_true_eq] at hb
      exact ⟨hb.1.1, hb.2⟩
    · simp only [JarirBrowserConnector.searchProduct, Except.ok.injEq] at h
      subst h
      have hb := List.of_mem_filter hp
      simp only [validGuard, Bool.and_eq_true, decide_eq_true_eq] at hb
      exact ⟨hb.1.1, hb.2⟩
    · simp only [GoogleShoppingConnector.searchProduct, Except.map, Except.ok.injEq] at h
      subst h
      exact google_extract_mem_valid c p hp

theorem connectors_returned_products_valid_witness :
    0 < c3Product.price ∧ 3 < c3Product.name.length :=
  connectors_returned_products_valid (.ok c3Content) [c3Product, c3Product]
    (Or.inl (by rfl)) c3Product (by simp)

/-! ### C4 -/

/-- Position of each strategy in the browser connector's chain (99 for a
strategy not in that chain). -/
def browserRank : Strategy → Nat
  | .jsonLd => 0
  | .opengraph => 1
  | .embeddedDom => 2
  | .embeddedApi => 3
  | .jsonAttributes => 4
  | .genericBlocks => 5
  | .searchResults => 6
  | .cssContainers => 99

/-- Yield of each strategy of the browser connector's chain. -/
def browserYield (c : Content) : Strategy → List ScrapedProduct
  | .jsonLd => (PriceExtractor.extractFromJsonLd c "Jarir").toList
  | .opengraph => (PriceExtractor.extractFromOpenGraph c "Jarir").toList
  | .embeddedDom => PriceExtractor.extractFromEmbeddedDomProducts c "Jarir"
  | .embeddedApi => PriceExtractor.extractFromEmbeddedApiPayloads c "Jarir"
  | .jsonAttributes => JarirBrowserConnector.extractFromProductJsonAttributes c
  | .genericBlocks => JarirBrowserConnector.extractFromGenericProductBlocks c
  | .searchResults => JarirBrowserConnector.extractFromSearchResults c
  | .cssContainers => []

/-- Position of each strategy in the plain connector's chain (99 for a
strategy not in that chain). -/
def jarirRank : Strategy → Nat
  | .jsonLd => 0
  | .opengraph => 1
  | .cssContainers => 2
  | _ => 99

/-- Yield of each strategy of the plain connector's chain. -/
def jarirYield (c : Content) : Strategy → List ScrapedProduct
  | .jsonLd => JarirConnector.jsonLdYield c
  | .opengraph => JarirConnector.openGraphYield c
  | .cssContainers => JarirConnector.extractProductsFromHtml c
  | _ => []

/-- If a strategy of the browser connector's chain was consulted, every
strategy strictly earlier in the chain yielded nothing at all. -/
theorem browser_earlier_yield_empty (c : Content) (s t : Strategy)
    (hs : s ∈ JarirBrowserConnector.consulted c)
    (ht : browserRank t < browserRank s) :
    browserYield c t = [] := by
  by_cases h1 : (PriceExtractor.extractFromJsonLd c "Jarir").toList = []
  case neg =>
    have hc : JarirBrowserConnector.consulted c = [.jsonLd] := by
      unfold JarirBrowserConnector.consulted JarirBrowserConnector.chain
      rw [runChain_cons_pos _ _ _ _ h1] <;> rfl
    rw [hc] at hs
    simp only [List.mem_singleton] at hs
    subst hs
    cases t <;> simp only [browserRank] at ht <;> omega
  case pos =>
  by_cases h2 : (PriceExtractor.extractFromOpenGraph c "Jarir").toList = []
  case neg =>
    have hc : JarirBrowserConnector.consulted c = [.jsonLd, .opengraph] := by
      unfold JarirBrowserConnector.consulted JarirBrowserConnector.chain
      rw [runChain_cons_neg _ _ _ _ h1, runChain_cons_pos _ _ _ _ h2] <;> rfl
    rw [hc] at hs
    simp only [List.mem_cons, List.mem_singleton, List.not_mem_nil, or_false] at hs
    rcases hs with rfl | rfl <;>
      cases t <;> simp only [browserRank] at ht <;> first | omega | exact h1
  case pos =>
  by_cases h3 : PriceExtractor.extractFromEmbeddedDomProducts c "Jarir" = []
  case neg =>
    have hc : JarirBrowserConnector.consulted c = [.jsonLd, .opengraph, .embeddedDom] := by
      unfold JarirBrowserConnector.consulted JarirBrowserConnector.chain
      rw [runChain_cons_neg _ _ _ _ h1, runChain_cons_neg _ _ _ _ h2,
          runChain_cons_pos _ _ _ _ h3] <;> rfl
    rw [hc] at hs
    simp only [List.mem_cons, List.mem_singleton, List.not_mem_nil, or_false] at hs
    rcases hs with rfl | rfl | rfl <;>
      cases t <;> simp only [browserRank] at ht <;> first | omega | exact h1 | exact h2
  case pos =>
  by_cases h4 : PriceExtractor.extractFromEmbeddedApiPayloads c "Jarir" = []
  case neg =>
    have hc : JarirBrowserConnector.consulted c =
        [.jsonLd, .opengraph, .embeddedDom, .embeddedApi] := by
      unfold JarirBrowserConnector.consulted JarirBrowserConnector.chain
      rw [runChain_cons_neg _ _ _ _ h1, runChain_cons_neg _ _ _ _ h2,
          runChain_cons_neg _ _ _ _ h3, runChain_cons_pos _ _ _ _ h4] <;> rfl
    rw [hc] at hs
    simp only [List.mem_cons, List.mem_singleton, List.not_mem_nil, or_false] at hs
    rcases hs with rfl | rfl | rfl | rfl <;>
      cases t <;> simp only [browserRank] at ht <;>
        first | omega | exact h1 | exact h2 | exact h3
  case pos =>
  by_cases h5 : JarirBrowserConnector.extractFromProductJsonAttributes c = []
  case neg =>
    have hc : JarirBrowserConnector.consulted c =
        [.jsonLd, .opengraph, .embeddedDom, .embeddedApi, .jsonAttributes] := by
      unfold JarirBrowserConnector.consulted JarirBrowserConnector.chain
      rw [runChain_cons_neg _ _ _ _ h1, runChain_cons_neg _ _ _ _ h2,
          runChain_cons_neg _ _ _ _ h3, runChain_cons_neg _ _ _ _ h4,
          runChain_cons_pos _ _ _ _ h5] <;> rfl
    rw [hc] at hs
    simp only [List.mem_cons, List.mem_singleton, List.not_mem_nil, or_false] at hs
    rcases hs with rfl | rfl | rfl | rfl | rfl <;>
      cases t <;> simp only [browserRank] at ht <;>
        first | omega | exact h1 | exact h2 | exact h3 | exact h4
  case pos =>
  by_cases h6 : JarirBrowserConnector.extractFromGenericProductBlocks c = []
  case neg =>
    have hc : JarirBrowserConnector.consulted c =
        [.jsonLd, .opengraph, .embeddedDom, .embeddedApi, .jsonAttributes, .genericBlocks] := by
      unfold JarirBrowserConnector.consulted JarirBrowserConnector.chain
      rw [runChain_cons_neg _ _ _ _ h1, runChain_cons_neg _ _ _ _ h2,
          runChain_cons_neg _ _ _ _ h3, runChain_cons_neg _ _ _ _ h4,
          runChain_cons_neg _ _ _ _ h5, runChain_cons_pos _ _ _ _ h6] <;> rfl
    rw [hc] at hs
    simp only [List.mem_cons, List.mem_singleton, List.not_mem_nil, or_false] at hs
    rcases hs with rfl | rfl | rfl | rfl | rfl | rfl <;>
      cases t <;> simp only [browserRank] at ht <;>
        first | omega | exact h1 | exact h2 | exact h3 | exact h4 | exact h5
  case pos =>
    have hc : JarirBrowserConnector.consulted c =
        [.jsonLd, .opengraph, .embeddedDom, .embeddedApi, .jsonAttributes,
         .genericBlocks, .searchResults] := by
      unfold JarirBrowserConnector.consulted JarirBrowserConnector.chain
      rw [runChain_cons_neg _ _ _ _ h1, runChain_cons_neg _ _ _ _ h2,
          runChain_cons_neg _ _ _ _ h3, runChain_cons_neg _ _ _ _ h4,
          runChain_cons_neg _ _ _ _ h5, runChain_cons_neg _ _ _ _ h6]
      by_cases h7 : JarirBrowserConnector.extractFromSearchResults c = []
      · rw [runChain_cons_neg _ _ _ _ h7] <;> rfl
      · rw [runChain_cons_pos _ _ _ _ h7] <;> rfl
    rw [hc] at hs
    simp only [List.mem_cons, List.mem_singleton, List.not_mem_nil, or_false] at hs
    rcases hs with rfl | rfl | rfl | rfl | rfl | rfl | rfl <;>
      cases t <;> simp only [browserRank] at ht <;>
        first | omega | exact h1 | exact h2 | exact h3 | exact h4 | exact h5 | exact h6

/-- If a strategy of the plain connector's chain was consulted, every
strategy strictly earlier in the chain yielded nothing at all. -/
theorem jarir_earlier_yield_empty (c : Content) (s t : Strategy)
    (hs : s ∈ JarirConnector.consulted c)
    (ht : jarirRank t < jarirRank s) :
    jarirYield c t = [] := by
  by_cases h1 : JarirConnector.jsonLdYield c = []
  case neg =>
    have hc : JarirConnector.consulted c = [.jsonLd] := by
      unfold JarirConnector.consulted JarirConnector.chain
      rw [runChain_cons_pos _ _ _ _ h1] <;> rfl
    rw [hc] at hs
    simp only [List.mem_singleton] at hs
    subst hs
    cases t <;> simp only [jarirRank] at ht <;> omega
  case pos =>
  by_cases h2 : JarirConnector.openGraphYield c = []
  case neg =>
    have hc : JarirConnector.consulted c = [.jsonLd, .opengraph] := by
      unfold JarirConnector.consulted JarirConnector.chain
      rw [runChain_cons_neg _ _ _ _ h1, runChain_cons_pos _ _ _ _ h2] <;> rfl
    rw [hc] at hs
    simp only [List.mem_cons, List.mem_singleton, List.not_mem_nil, or_false] at hs
    rcases hs with rfl | rfl <;>
      cases t <;> simp only [jarirRank] at ht <;> first | omega | exact h1
  case pos =>
    have hc : JarirConnector.consulted c = [.jsonLd, .opengraph, .cssContainers] := by
      unfold JarirConnector.consulted JarirConnector.chain
      rw [runChain_cons_neg _ _ _ _ h1, runChain_cons_neg _ _ _ _ h2]
      by_cases h3 : JarirConnector.extractProductsFromHtml c = []
      · rw [runChain_cons_neg _ _ _ _ h3] <;> rfl
      · rw [runChain_cons_pos _ _ _ _ h3] <;> rfl
    rw [hc] at hs
    simp only [List.mem_cons, List.mem_singleton, List.not_mem_nil, or_false] at hs
    rcases hs with rfl | rfl | rfl <;>
      cases t <;> simp only [jarirRank] at ht <;> first | omega | exact h1 | exact h2

/-- C4.  The extraction strategies run in order with first-non-empty-wins:
if the structured-data (JSON-LD) strategy yields a valid candidate, it is
the only strategy consulted (both connectors); and in either chain, a
later strategy is consulted only when every earlier strategy yielded no
valid candidate. -/
theorem fallback_chain_short_circuit (c : Content) :
    ((∃ p, PriceExtractor.extractFromJsonLd c "Jarir" = some p ∧
        0 < p.price ∧ 3 < p.name.length) →
      JarirBrowserConnector.consulted c = [.jsonLd] ∧
      JarirConnector.consulted c = [.jsonLd]) ∧
    (∀ s t : Strategy, s ∈ JarirBrowserConnector.consulted c →
      browserRank t < browserRank s →
      ∀ p ∈ browserYield c t, ¬ (0 < p.price ∧ 3 < p.name.length)) ∧
    (∀ s t : Strategy, s ∈ JarirConnector.consulted c →
      jarirRank t < jarirRank s →
      ∀ p ∈ jarirYield c t, ¬ (0 < p.price ∧ 3 < p.name.length)) := by
  refine ⟨?_, ?_, ?_⟩
  · rintro ⟨p, hp, -, -⟩
    have hne : (PriceExtractor.extractFromJsonLd c "Jarir").toList ≠ [] := by
      rw [hp]; simp
    constructor
    · unfold JarirBrowserConnector.consulted JarirBrowserConnector.chain
      rw [runChain_cons_pos _ _ _ _ hne] <;> rfl
    · unfold JarirConnector.consulted JarirConnector.chain
      rw [runChain_cons_pos _ _ _ _ hne] <;> rfl
  · intro s t hs ht p hp
    rw [browser_earlier_yield_empty c s t hs ht] at hp
    simp at hp
  · intro s t hs ht p hp
    rw [jarir_earlier_yield_empty c s t hs ht] at hp
    simp at hp

/-- The structured-data record extracted from `iphoneContent`. -/
def iphoneProduct : ScrapedProduct :=
  { name := "iPhone 14"
    price := 3999
    currency := some "SAR"
    availability := some .unknown
    extractionMethod := some .jsonLd
    marketplace := "Jarir" }

theorem fallback_chain_short_circuit_witness :
    JarirBrowserConnector.consulted iphoneContent = [.jsonLd] ∧
    JarirConnector.consulted iphoneContent = [.jsonLd] :=
  (fallback_chain_short_circuit iphoneContent).1
    ⟨iphoneProduct, by rfl, by norm_num [iphoneProduct], by decide⟩
